import Mathlib

/-!
# Verification of the TCompiler core against its specification

This file gives a shallow embedding, in Lean 4, of the parts of the
T language compiler (`src/`) that the specification's claims are about:

* name mangling (`src/src/main/translate/translate.c`, `mangleType`,
  `mangleModuleName`, `mangleVarName`, `mangleFunctionName`,
  `codeFilenameToAssembyFilename`);
* the recursive-descent parser with error recovery
  (`src/src/main/parser/parser.c`: `panicTopLevel`, `createBreatkStmt`,
  `parseStructDecl`, `parseUnionDecl`, `parseFile`, `parseBodies`, ...);
* the translator to three-address IR
  (`src/src/main/translate/translate.c`: `translateGlobalVar`,
  `translateStmt`, `translateFunction`, with the IR data model of
  `src/src/main/ir/ir.h`);
* identifier resolution (`src/src/main/typecheck/symbolTable.c`,
  `environmentIsType`).

C strings are embedded as `List Char`; C vectors as `List`; hash maps as
association lists (iteration order is the list order); machine counters
(`size_t`) as `Nat`.  Fallible C functions returning `NULL` are embedded
as `Option`-returning functions.  Loops whose termination is not
structural are given an explicit fuel argument (`Nat`), with `none`
meaning the fuel ran out; a function that diverges in C is one whose
embedding returns `none` for *every* fuel.

Helper functions of the repository that are declared but whose
definitions are not under `src/` (`explodeName`, `typeSizeof`,
`typeAlignof`, the label-generator and access collaborators) are
modelled from the specification; each such definition carries a doc
comment starting with `Modelled from the spec:`.
-/

/-! ## Decimal printing (the C `%zu` format used by the mangler)

`format("%zu", n)` prints `n` in decimal.  `digitsLe` is a fuel-based
structural embedding of the usual divide-by-ten loop; `natRepr n` is the
decimal numeral of `n`, most significant digit first. -/

def digitChar (n : Nat) : Char := Char.ofNat (48 + n)

/-- Little-endian decimal digits of `n`; `fuel` only bounds the recursion
and is irrelevant as soon as it exceeds `n` (`digitsLe_congr`). -/
def digitsLe : Nat → Nat → List Char
  | 0, _ => []
  | fuel + 1, n =>
    if n < 10 then [digitChar n]
    else digitChar (n % 10) :: digitsLe fuel (n / 10)

/-- Decimal numeral of `n`, most significant digit first. -/
def natRepr (n : Nat) : List Char := (digitsLe (n + 1) n).reverse

theorem digitsLe_congr :
    ∀ fuel fuel' n : Nat, n < fuel → n < fuel' →
      digitsLe fuel n = digitsLe fuel' n := by
  intro fuel
  induction fuel with
  | zero => intro fuel' n h; omega
  | succ f ih =>
    intro fuel' n h h'
    match fuel', h' with
    | f' + 1, _ =>
      show digitsLe (f + 1) n = digitsLe (f' + 1) n
      simp only [digitsLe]
      by_cases h10 : n < 10
      · simp [h10]
      · simp only [if_neg h10]
        have hd : n / 10 < n := Nat.div_lt_self (by omega) (by omega)
        rw [ih f' (n / 10) (by omega) (by omega)]

theorem digitsLe_ne_nil (fuel n : Nat) (h : n < fuel) : digitsLe fuel n ≠ [] := by
  match fuel, h with
  | f + 1, _ =>
    simp only [digitsLe]
    by_cases h10 : n < 10 <;> simp [h10]

theorem natRepr_ne_nil (n : Nat) : natRepr n ≠ [] := by
  have := digitsLe_ne_nil (n + 1) n (by omega)
  simpa [natRepr] using this

theorem digitChar_isDigit (n : Nat) (h : n < 10) : (digitChar n).isDigit = true := by
  interval_cases n <;> decide

theorem digitsLe_all_digits :
    ∀ fuel n : Nat, n < fuel → ∀ c ∈ digitsLe fuel n, c.isDigit = true := by
  intro fuel
  induction fuel with
  | zero => intro n h; omega
  | succ f ih =>
    intro n h c hc
    simp only [digitsLe] at hc
    by_cases h10 : n < 10
    · simp [h10] at hc
      subst hc; exact digitChar_isDigit n h10
    · simp only [if_neg h10, List.mem_cons] at hc
      rcases hc with hc | hc
      · subst hc; exact digitChar_isDigit (n % 10) (Nat.mod_lt _ (by omega))
      · exact ih (n / 10) (by have := Nat.div_lt_self (show 0 < n by omega) (show 1 < 10 by omega); omega) c hc

theorem natRepr_all_digits (n : Nat) : ∀ c ∈ natRepr n, c.isDigit = true := by
  intro c hc
  simp only [natRepr, List.mem_reverse] at hc
  exact digitsLe_all_digits (n + 1) n (by omega) c hc

/-- numeric value of a digit character -/
def digitVal (c : Char) : Nat := c.toNat - 48

/-- value of a little-endian digit list -/
def digitsVal : List Char → Nat
  | [] => 0
  | c :: rest => digitVal c + 10 * digitsVal rest

theorem digitVal_digitChar (n : Nat) (h : n < 10) : digitVal (digitChar n) = n := by
  interval_cases n <;> decide

theorem digitsVal_digitsLe :
    ∀ fuel n : Nat, n < fuel → digitsVal (digitsLe fuel n) = n := by
  intro fuel
  induction fuel with
  | zero => intro n h; omega
  | succ f ih =>
    intro n h
    simp only [digitsLe]
    by_cases h10 : n < 10
    · simp [h10, digitsVal, digitVal_digitChar n h10]
    · simp only [if_neg h10, digitsVal]
      rw [digitVal_digitChar (n % 10) (Nat.mod_lt _ (by omega))]
      rw [ih (n / 10) (by have := Nat.div_lt_self (show 0 < n by omega) (show 1 < 10 by omega); omega)]
      omega

theorem natRepr_injective (m n : Nat) (h : natRepr m = natRepr n) : m = n := by
  have hm := digitsVal_digitsLe (m + 1) m (by omega)
  have hn := digitsVal_digitsLe (n + 1) n (by omega)
  have : (natRepr m).reverse = (natRepr n).reverse := by rw [h]
  simp only [natRepr, List.reverse_reverse] at this
  rw [this] at hm
  omega

/-! ## Semantic types and name mangling

Embedding of the `Type` tagged union used by `translate.c` (kinds
`K_VOID` … `K_BOOL`, `K_STRUCT`/`K_UNION`/`K_ENUM`/`K_TYPEDEF`
references, `K_CONST`, `K_ARRAY`, `K_PTR`, `K_FUNCTION_PTR`) and of the
mangling functions `translate.c:160-291`.  A reference type is mangled
from its referenced entry's module and name only
(`translate.c:221-231`), so the embedding carries exactly those.  Module
names are carried as their list of dot-separated segments: the C code
splits the dotted string with `explodeName`, whose definition is not
under `src/` (spec §4.4: "for each dot-separated module segment"). -/

inductive Ty where
  | void | ubyte | byte | char | ushort | short | uint | int
  | wchar | ulong | long | float | double | bool
  | named (module : List (List Char)) (name : List Char)
  | const (base : Ty)
  | array (size : Nat) (base : Ty)
  | ptr (base : Ty)
  | funPtr (ret : Ty) (args : List Ty)
deriving Repr

/-- a length-prefixed segment, the C idiom `format("%zu%s", strlen(s), s)` -/
def lenPrefixed (s : List Char) : List Char := natRepr s.length ++ s

/-- Embedding of `mangleModuleName` (translate.c:160): `__Z` followed by
each segment of the module path, length-prefixed. -/
def mangleModuleName (moduleName : List (List Char)) : List Char :=
  ['_', '_', 'Z'] ++ (moduleName.map lenPrefixed).flatten

/-- Embedding of `mangleTypeName` (translate.c:172). -/
def mangleTypeName (moduleName : List (List Char)) (typeName : List Char) : List Char :=
  mangleModuleName moduleName ++ lenPrefixed typeName

mutual
/-- Embedding of `mangleType` (translate.c:177-264): the compact
per-type encoding (`v`, `ub`, `sb`, …, `T<len><name>`, `C<t>`,
`A<n><t>`, `P<t>`, `F<ret><args>`). -/
def mangleType : Ty → List Char
  | .void => ['v']
  | .ubyte => ['u', 'b']
  | .byte => ['s', 'b']
  | .char => ['c']
  | .ushort => ['u', 's']
  | .short => ['s', 's']
  | .uint => ['u', 'i']
  | .int => ['s', 'i']
  | .wchar => ['w']
  | .ulong => ['u', 'l']
  | .long => ['s', 'l']
  | .float => ['f']
  | .double => ['d']
  | .bool => ['B']
  | .named m n =>
    let mangledTypeName := mangleTypeName m n
    'T' :: (natRepr mangledTypeName.length ++ mangledTypeName)
  | .const t => 'C' :: mangleType t
  | .array n t => 'A' :: (natRepr n ++ mangleType t)
  | .ptr t => 'P' :: mangleType t
  | .funPtr ret args => 'F' :: (mangleType ret ++ mangleTypeString args)

/-- Embedding of `mangleTypeString` (translate.c:265): concatenation of
the argument encodings, with no separator, count, or terminator. -/
def mangleTypeString : List Ty → List Char
  | [] => []
  | t :: rest => mangleType t ++ mangleTypeString rest
end

/-- Embedding of `mangleVarName` (translate.c:276). -/
def mangleVarName (moduleName : List (List Char)) (id : List Char) : List Char :=
  mangleModuleName moduleName ++ lenPrefixed id

/-- Embedding of `mangleFunctionName` (translate.c:282). -/
def mangleFunctionName (moduleName : List (List Char)) (id : List Char)
    (argumentTypes : List Ty) : List Char :=
  mangleModuleName moduleName ++ lenPrefixed id ++ mangleTypeString argumentTypes

/-- a T identifier: nonempty, does not start with a digit -/
def validIdent : List Char → Bool
  | [] => false
  | c :: _ => !c.isDigit

/-- argument types for which the encoding is unambiguous: all referenced
names are identifiers and no function-pointer type occurs anywhere -/
def wfTy : Ty → Bool
  | .named m n => m.all validIdent && validIdent n
  | .const t => wfTy t
  | .array _ t => wfTy t
  | .ptr t => wfTy t
  | .funPtr _ _ => false
  | _ => true

example : mangleVarName [['a']] ['x'] = "__Z1a1x".data := by decide
example : mangleFunctionName [['a']] ['f'] [.int] = "__Z1a1fsi".data := by decide

/-! ### Unique decodability of the length-prefixed segments -/

/-- the first character, if any, is not a decimal digit -/
def headNotDigit (l : List Char) : Prop :=
  ∀ c, l.head? = some c → c.isDigit = false

theorem headNotDigit_nil : headNotDigit [] := by
  intro c hc; simp at hc

theorem validIdent_headNotDigit (a s : List Char) (ha : validIdent a = true) :
    headNotDigit (a ++ s) := by
  cases a with
  | nil => simp [validIdent] at ha
  | cons c cs =>
    intro c' hc'
    simp at hc'
    simp [validIdent] at ha
    rw [← hc']
    exact ha

theorem digits_append_cancel :
    ∀ d1 d2 s1 s2 : List Char,
      (∀ c ∈ d1, c.isDigit = true) → (∀ c ∈ d2, c.isDigit = true) →
      headNotDigit s1 → headNotDigit s2 →
      d1 ++ s1 = d2 ++ s2 → d1 = d2 ∧ s1 = s2 := by
  intro d1
  induction d1 with
  | nil =>
    intro d2 s1 s2 _ h2 hs1 _ heq
    cases d2 with
    | nil => simpa using heq
    | cons b bs =>
      simp only [List.nil_append, List.cons_append] at heq
      have hb : b.isDigit = true := h2 b (by simp)
      have hhd : s1.head? = some b := by rw [heq]; rfl
      have := hs1 b hhd
      rw [this] at hb
      exact absurd hb (by simp)
  | cons a as ih =>
    intro d2 s1 s2 h1 h2 hs1 hs2 heq
    cases d2 with
    | nil =>
      simp only [List.cons_append, List.nil_append] at heq
      have ha : a.isDigit = true := h1 a (by simp)
      have hhd : s2.head? = some a := by rw [← heq]; rfl
      have := hs2 a hhd
      rw [this] at ha
      exact absurd ha (by simp)
    | cons b bs =>
      simp only [List.cons_append, List.cons.injEq] at heq
      obtain ⟨hab, heq'⟩ := heq
      have := ih bs s1 s2 (fun c hc => h1 c (by simp [hc])) (fun c hc => h2 c (by simp [hc]))
        hs1 hs2 heq'
      exact ⟨by rw [hab, this.1], this.2⟩

theorem lenPrefixed_cancel (a b s1 s2 : List Char)
    (ha : validIdent a = true) (hb : validIdent b = true)
    (h : lenPrefixed a ++ s1 = lenPrefixed b ++ s2) : a = b ∧ s1 = s2 := by
  have h' : natRepr a.length ++ (a ++ s1) = natRepr b.length ++ (b ++ s2) := by
    simpa [lenPrefixed, List.append_assoc] using h
  have hc := digits_append_cancel _ _ _ _ (natRepr_all_digits _) (natRepr_all_digits _)
    (validIdent_headNotDigit a s1 ha) (validIdent_headNotDigit b s2 hb) h'
  have hlen : a.length = b.length := natRepr_injective _ _ hc.1
  exact List.append_inj hc.2 hlen

theorem chunks_cancel :
    ∀ l1 l2 : List (List Char), ∀ t1 t2 : List Char,
      (∀ a ∈ l1, validIdent a = true) → (∀ a ∈ l2, validIdent a = true) →
      headNotDigit t1 → headNotDigit t2 →
      (l1.map lenPrefixed).flatten ++ t1 = (l2.map lenPrefixed).flatten ++ t2 →
      l1 = l2 ∧ t1 = t2 := by
  intro l1
  induction l1 with
  | nil =>
    intro l2 t1 t2 _ h2 hs1 _ heq
    cases l2 with
    | nil => simpa using heq
    | cons b bs =>
      exfalso
      simp only [List.map_nil, List.flatten_nil, List.nil_append, List.map_cons,
        List.flatten_cons, List.append_assoc] at heq
      obtain ⟨c, rest, hcr⟩ := List.exists_cons_of_ne_nil (natRepr_ne_nil b.length)
      have hhd : t1.head? = some c := by
        rw [heq]; simp [lenPrefixed, hcr]
      have hdig : c.isDigit = true := by
        apply natRepr_all_digits b.length
        rw [hcr]; simp
      have := hs1 c hhd
      rw [this] at hdig
      exact absurd hdig (by simp)
  | cons a as ih =>
    intro l2 t1 t2 h1 h2 hs1 hs2 heq
    cases l2 with
    | nil =>
      exfalso
      simp only [List.map_nil, List.flatten_nil, List.nil_append, List.map_cons,
        List.flatten_cons, List.append_assoc] at heq
      obtain ⟨c, rest, hcr⟩ := List.exists_cons_of_ne_nil (natRepr_ne_nil a.length)
      have hhd : t2.head? = some c := by
        rw [← heq]; simp [lenPrefixed, hcr]
      have hdig : c.isDigit = true := by
        apply natRepr_all_digits a.length
        rw [hcr]; simp
      have := hs2 c hhd
      rw [this] at hdig
      exact absurd hdig (by simp)
    | cons b bs =>
      simp only [List.map_cons, List.flatten_cons, List.append_assoc] at heq
      have hstep := lenPrefixed_cancel a b _ _ (h1 a (by simp)) (h2 b (by simp)) heq
      obtain ⟨hab, heq'⟩ := hstep
      have := ih bs t1 t2 (fun x hx => h1 x (by simp [hx])) (fun x hx => h2 x (by simp [hx]))
        hs1 hs2 heq'
      exact ⟨by rw [hab, this.1], this.2⟩

theorem append_singleton_inj {α : Type} (l1 l2 : List α) (a b : α)
    (h : l1 ++ [a] = l2 ++ [b]) : l1 = l2 ∧ a = b := by
  have hr := congrArg List.reverse h
  simp only [List.reverse_append, List.reverse_cons, List.reverse_nil,
    List.nil_append, List.singleton_append, List.cons.injEq] at hr
  exact ⟨by have := congrArg List.reverse hr.2; simpa using this, hr.1⟩

theorem mangleVarName_eq_chunks (m : List (List Char)) (id : List Char) :
    mangleVarName m id = ['_', '_', 'Z'] ++ ((m ++ [id]).map lenPrefixed).flatten := by
  simp [mangleVarName, mangleModuleName, List.map_append, List.flatten_append]

/-! ### A decoder for the type encoding

The decoder is a proof device (not part of the source): running it after
`mangleType` recovers the type, which yields unique decodability of the
encoding for function-pointer-free types. -/

/-- value of a big-endian digit list -/
def valBE (l : List Char) : Nat := l.foldl (fun acc c => acc * 10 + digitVal c) 0

theorem valBE_append (l : List Char) (c : Char) :
    valBE (l ++ [c]) = valBE l * 10 + digitVal c := by
  simp [valBE, List.foldl_append]

theorem valBE_reverse (l : List Char) : valBE l.reverse = digitsVal l := by
  induction l with
  | nil => rfl
  | cons c rest ih =>
    simp only [List.reverse_cons, valBE_append, ih, digitsVal]
    omega

theorem valBE_natRepr (n : Nat) : valBE (natRepr n) = n := by
  simp [natRepr, valBE_reverse, digitsVal_digitsLe (n + 1) n (by omega)]

theorem splitWhile_digits (l s : List Char)
    (hl : ∀ c ∈ l, c.isDigit = true) (hs : headNotDigit s) :
    (l ++ s).takeWhile (fun c => c.isDigit) = l ∧
      (l ++ s).dropWhile (fun c => c.isDigit) = s := by
  induction l with
  | nil =>
    cases s with
    | nil => exact ⟨rfl, rfl⟩
    | cons c cs =>
      have := hs c rfl
      constructor
      · simp [List.takeWhile_cons, this]
      · simp [List.dropWhile_cons, this]
  | cons c rest ih =>
    have hc : c.isDigit = true := hl c (by simp)
    have := ih (fun x hx => hl x (by simp [hx]))
    constructor
    · simp [List.takeWhile_cons, hc, this.1]
    · simp [List.dropWhile_cons, hc, this.2]

/-- parse a maximal run of decimal digits -/
def decodeNat (cs : List Char) : Option (Nat × List Char) :=
  let ds := cs.takeWhile (fun c => c.isDigit)
  if ds.isEmpty then none
  else some (valBE ds, cs.dropWhile (fun c => c.isDigit))

theorem decodeNat_natRepr (n : Nat) (s : List Char) (hs : headNotDigit s) :
    decodeNat (natRepr n ++ s) = some (n, s) := by
  obtain ⟨ht, hd⟩ := splitWhile_digits (natRepr n) s (natRepr_all_digits n) hs
  simp [decodeNat, ht, hd, natRepr_ne_nil n, List.isEmpty_iff, valBE_natRepr]

theorem decodeNat_consumes (cs : List Char) (n : Nat) (r : List Char)
    (h : decodeNat cs = some (n, r)) : r.length < cs.length := by
  simp only [decodeNat] at h
  by_cases he : (cs.takeWhile (fun c => c.isDigit)).isEmpty
  · simp [he] at h
  · simp only [if_neg he] at h
    rw [Option.some.injEq, Prod.mk.injEq] at h
    obtain ⟨-, hr⟩ := h
    have hsplit := List.takeWhile_append_dropWhile (p := fun c => c.isDigit) (l := cs)
    have hlen : cs.length =
        (cs.takeWhile (fun c => c.isDigit)).length +
          (cs.dropWhile (fun c => c.isDigit)).length := by
      conv_lhs => rw [← hsplit]
      rw [List.length_append]
    have hne : (cs.takeWhile (fun c => c.isDigit)).length ≠ 0 := by
      simpa [List.isEmpty_iff, List.length_eq_zero] using he
    rw [← hr]
    omega

/-- parse a sequence of length-prefixed segments running to the end -/
def decodeChunks (cs : List Char) : Option (List (List Char)) :=
  if hcs : cs = [] then some []
  else
    match h : decodeNat cs with
    | none => none
    | some (n, r) =>
      match decodeChunks (r.drop n) with
      | none => none
      | some rest => some (r.take n :: rest)
termination_by cs.length
decreasing_by
  have := decodeNat_consumes cs n r h
  have : (r.drop n).length ≤ r.length := by simp
  omega

theorem take_drop_append_len {α : Type} (l1 l2 : List α) :
    (l1 ++ l2).take l1.length = l1 ∧ (l1 ++ l2).drop l1.length = l2 := by
  induction l1 with
  | nil => simp
  | cons a rest ih => simpa using ih

theorem decodeChunks_roundtrip :
    ∀ l : List (List Char), (∀ a ∈ l, validIdent a = true) →
      decodeChunks ((l.map lenPrefixed).flatten) = some l := by
  intro l
  induction l with
  | nil => intro _; simp [decodeChunks]
  | cons a as ih =>
    intro hv
    have hvalid : validIdent a = true := hv a (by simp)
    have hflat : ((a :: as).map lenPrefixed).flatten
        = natRepr a.length ++ (a ++ (as.map lenPrefixed).flatten) := by
      simp [lenPrefixed, List.append_assoc]
    have hne : ((a :: as).map lenPrefixed).flatten ≠ [] := by
      rw [hflat]
      intro hcontra
      exact natRepr_ne_nil a.length (List.append_eq_nil.mp hcontra).1
    have hdec : decodeNat (((a :: as).map lenPrefixed).flatten)
        = some (a.length, a ++ (as.map lenPrefixed).flatten) := by
      rw [hflat]
      exact decodeNat_natRepr _ _ (validIdent_headNotDigit a _ hvalid)
    have htd := take_drop_append_len a ((as.map lenPrefixed).flatten)
    rw [decodeChunks]
    rw [dif_neg hne, hdec]
    simp only [htd.1, htd.2, ih (fun x hx => hv x (by simp [hx]))]

/-- parse a mangled global name `__Z<chunks>`, returning module and name -/
def decodeName (cs : List Char) : Option (List (List Char) × List Char) :=
  match cs with
  | '_' :: '_' :: 'Z' :: r =>
    match decodeChunks r with
    | none => none
    | some l =>
      match l.getLast? with
      | none => none
      | some nm => some (l.dropLast, nm)
  | _ => none

theorem mangleTypeName_eq_chunks (m : List (List Char)) (nm : List Char) :
    mangleTypeName m nm = ['_', '_', 'Z'] ++ ((m ++ [nm]).map lenPrefixed).flatten := by
  simp [mangleTypeName, mangleModuleName, List.map_append, List.flatten_append]

theorem decodeName_roundtrip (m : List (List Char)) (nm : List Char)
    (hm : ∀ a ∈ m, validIdent a = true) (hnm : validIdent nm = true) :
    decodeName (mangleTypeName m nm) = some (m, nm) := by
  rw [mangleTypeName_eq_chunks]
  show decodeName ('_' :: '_' :: 'Z' :: ((m ++ [nm]).map lenPrefixed).flatten) = some (m, nm)
  have hall : ∀ a ∈ m ++ [nm], validIdent a = true := by
    intro a ha
    rcases List.mem_append.mp ha with h | h
    · exact hm a h
    · simp at h; rw [h]; exact hnm
  simp only [decodeName, decodeChunks_roundtrip (m ++ [nm]) hall]
  rw [List.getLast?_concat, List.dropLast_concat]

/-- decode one type encoding, returning the rest of the input; the
first argument is recursion fuel (any value exceeding the nesting depth
of the type works); the `F` encoding is never produced for
function-pointer-free types and is not decoded -/
def decodeType : Nat → List Char → Option (Ty × List Char)
  | 0, _ => none
  | fuel + 1, cs =>
    match cs with
    | 'v' :: r => some (.void, r)
    | 'u' :: 'b' :: r => some (.ubyte, r)
    | 'u' :: 's' :: r => some (.ushort, r)
    | 'u' :: 'i' :: r => some (.uint, r)
    | 'u' :: 'l' :: r => some (.ulong, r)
    | 's' :: 'b' :: r => some (.byte, r)
    | 's' :: 's' :: r => some (.short, r)
    | 's' :: 'i' :: r => some (.int, r)
    | 's' :: 'l' :: r => some (.long, r)
    | 'c' :: r => some (.char, r)
    | 'w' :: r => some (.wchar, r)
    | 'f' :: r => some (.float, r)
    | 'd' :: r => some (.double, r)
    | 'B' :: r => some (.bool, r)
    | 'T' :: r =>
      (decodeNat r).bind fun p =>
        (decodeName (p.2.take p.1)).bind fun q =>
          some (.named q.1 q.2, p.2.drop p.1)
    | 'C' :: r =>
      (decodeType fuel r).bind fun p => some (.const p.1, p.2)
    | 'A' :: r =>
      (decodeNat r).bind fun p =>
        (decodeType fuel p.2).bind fun q => some (.array p.1 q.1, q.2)
    | 'P' :: r =>
      (decodeType fuel r).bind fun p => some (.ptr p.1, p.2)
    | _ => none

theorem mangleType_head (t : Ty) :
    ∃ c rest, mangleType t = c :: rest ∧ c.isDigit = false := by
  cases t <;> exact ⟨_, _, rfl, by decide⟩

theorem mangleTypeString_headNotDigit (l : List Ty) :
    headNotDigit (mangleTypeString l) := by
  cases l with
  | nil => exact headNotDigit_nil
  | cons t rest =>
    obtain ⟨c, cs, hc, hd⟩ := mangleType_head t
    intro c' hc'
    rw [show mangleTypeString (t :: rest) = mangleType t ++ mangleTypeString rest from rfl,
      hc] at hc'
    simp at hc'
    rw [← hc']
    exact hd

theorem mangleTypeName_headNotDigit (m : List (List Char)) (nm : List Char)
    (r : List Char) : headNotDigit (mangleTypeName m nm ++ r) := by
  rw [mangleTypeName_eq_chunks]
  intro c hc
  simp at hc
  rw [← hc]
  decide

theorem decodeType_succ_T (fuel : Nat) (r : List Char) :
    decodeType (fuel + 1) ('T' :: r)
      = (decodeNat r).bind fun p =>
          (decodeName (p.2.take p.1)).bind fun q =>
            some (.named q.1 q.2, p.2.drop p.1) := rfl

theorem decodeType_succ_C (fuel : Nat) (r : List Char) :
    decodeType (fuel + 1) ('C' :: r)
      = (decodeType fuel r).bind fun p => some (.const p.1, p.2) := rfl

theorem decodeType_succ_A (fuel : Nat) (r : List Char) :
    decodeType (fuel + 1) ('A' :: r)
      = (decodeNat r).bind fun p =>
          (decodeType fuel p.2).bind fun q => some (.array p.1 q.1, q.2) := rfl

theorem decodeType_succ_P (fuel : Nat) (r : List Char) :
    decodeType (fuel + 1) ('P' :: r)
      = (decodeType fuel r).bind fun p => some (.ptr p.1, p.2) := rfl

theorem decodeType_mangle_aux :
    ∀ k : Nat, ∀ t : Ty, sizeOf t < k → wfTy t = true →
      ∀ r : List Char, decodeType k (mangleType t ++ r) = some (t, r) := by
  intro k
  induction k with
  | zero =>
    intro t hsize
    exact absurd hsize (Nat.not_lt_zero _)
  | succ k ih =>
    intro t hsize hwf r
    cases t with
    | void => rfl
    | ubyte => rfl
    | byte => rfl
    | char => rfl
    | ushort => rfl
    | short => rfl
    | uint => rfl
    | int => rfl
    | wchar => rfl
    | ulong => rfl
    | long => rfl
    | float => rfl
    | double => rfl
    | bool => rfl
    | named m n =>
      simp only [wfTy, Bool.and_eq_true, List.all_eq_true] at hwf
      obtain ⟨hm, hn⟩ := hwf
      have hmt : mangleType (.named m n) ++ r
          = 'T' :: (natRepr (mangleTypeName m n).length ++ (mangleTypeName m n ++ r)) := by
        show ('T' :: (natRepr (mangleTypeName m n).length ++ mangleTypeName m n)) ++ r = _
        simp [List.append_assoc]
      rw [hmt]
      have hdec : decodeNat (natRepr (mangleTypeName m n).length ++ (mangleTypeName m n ++ r))
          = some ((mangleTypeName m n).length, mangleTypeName m n ++ r) :=
        decodeNat_natRepr _ _ (mangleTypeName_headNotDigit m n r)
      have htd := take_drop_append_len (mangleTypeName m n) r
      rw [decodeType_succ_T, hdec]
      simp only [Option.some_bind]
      rw [htd.1, htd.2, decodeName_roundtrip m n (fun a ha => hm a ha) hn]
      simp only [Option.some_bind]
    | const b =>
      have hb : sizeOf b < k := by
        have : sizeOf (Ty.const b) = 1 + sizeOf b := by simp
        omega
      have hwb : wfTy b = true := hwf
      have hmt : mangleType (.const b) ++ r = 'C' :: (mangleType b ++ r) := rfl
      rw [hmt, decodeType_succ_C, ih b hb hwb r]
      simp only [Option.some_bind]
    | array n b =>
      have hb : sizeOf b < k := by
        have : sizeOf (Ty.array n b) = 1 + sizeOf n + sizeOf b := by simp
        omega
      have hwb : wfTy b = true := hwf
      have hhead : headNotDigit (mangleType b ++ r) := by
        obtain ⟨c, cs, hc, hd⟩ := mangleType_head b
        intro c' hc'
        rw [hc] at hc'
        simp at hc'
        rw [← hc']
        exact hd
      have hdec : decodeNat (natRepr n ++ (mangleType b ++ r))
          = some (n, mangleType b ++ r) := decodeNat_natRepr _ _ hhead
      have hmt : mangleType (.array n b) ++ r = 'A' :: (natRepr n ++ (mangleType b ++ r)) := by
        show ('A' :: (natRepr n ++ mangleType b)) ++ r = _
        simp [List.append_assoc]
      rw [hmt, decodeType_succ_A, hdec]
      simp only [Option.some_bind]
      rw [ih b hb hwb r]
      simp only [Option.some_bind]
    | ptr b =>
      have hb : sizeOf b < k := by
        have : sizeOf (Ty.ptr b) = 1 + sizeOf b := by simp
        omega
      have hwb : wfTy b = true := hwf
      have hmt : mangleType (.ptr b) ++ r = 'P' :: (mangleType b ++ r) := rfl
      rw [hmt, decodeType_succ_P, ih b hb hwb r]
      simp only [Option.some_bind]
    | funPtr ret args => simp [wfTy] at hwf

theorem mangleType_cancel (t1 t2 : Ty) (r1 r2 : List Char)
    (h1 : wfTy t1 = true) (h2 : wfTy t2 = true)
    (h : mangleType t1 ++ r1 = mangleType t2 ++ r2) : t1 = t2 ∧ r1 = r2 := by
  have e1 := decodeType_mangle_aux (sizeOf t1 + sizeOf t2 + 1) t1 (by omega) h1 r1
  have e2 := decodeType_mangle_aux (sizeOf t1 + sizeOf t2 + 1) t2 (by omega) h2 r2
  rw [h] at e1
  rw [e2] at e1
  simp at e1
  exact ⟨e1.1.symm, e1.2.symm⟩

theorem mangleTypeString_cancel :
    ∀ l1 l2 : List Ty, (∀ t ∈ l1, wfTy t = true) → (∀ t ∈ l2, wfTy t = true) →
      mangleTypeString l1 = mangleTypeString l2 → l1 = l2 := by
  intro l1
  induction l1 with
  | nil =>
    intro l2 _ _ h
    cases l2 with
    | nil => rfl
    | cons b bs =>
      exfalso
      obtain ⟨c, cs, hc, -⟩ := mangleType_head b
      rw [show mangleTypeString (b :: bs) = mangleType b ++ mangleTypeString bs from rfl,
        hc] at h
      simp [mangleTypeString] at h
  | cons a as ih =>
    intro l2 hl1 hl2 h
    cases l2 with
    | nil =>
      exfalso
      obtain ⟨c, cs, hc, -⟩ := mangleType_head a
      rw [show mangleTypeString (a :: as) = mangleType a ++ mangleTypeString as from rfl,
        hc] at h
      simp [mangleTypeString] at h
    | cons b bs =>
      rw [show mangleTypeString (a :: as) = mangleType a ++ mangleTypeString as from rfl,
        show mangleTypeString (b :: bs) = mangleType b ++ mangleTypeString bs from rfl] at h
      obtain ⟨hab, hrest⟩ := mangleType_cancel a b _ _ (hl1 a (by simp)) (hl2 b (by simp)) h
      rw [hab, ih bs (fun t ht => hl1 t (by simp [ht])) (fun t ht => hl2 t (by simp [ht])) hrest]

theorem mangleFunctionName_eq_chunks (m : List (List Char)) (id : List Char)
    (args : List Ty) :
    mangleFunctionName m id args
      = ['_', '_', 'Z'] ++ (((m ++ [id]).map lenPrefixed).flatten ++ mangleTypeString args) := by
  simp [mangleFunctionName, mangleModuleName, List.map_append, List.flatten_append,
    List.append_assoc]

/-- C1 (counterexample): the `F` function-pointer encoding appends the
argument encodings with no count or terminator, so two distinct
argument-type lists produce the same mangled function name:
`f(void(*)(int), int)` and `f(void(*)(int, int))` both mangle to
`__Z1a1fFvsisi`. -/
theorem C1_mangle_counterexample :
    mangleFunctionName [['a']] ['f'] [.funPtr .void [.int], .int]
      = mangleFunctionName [['a']] ['f'] [.funPtr .void [.int, .int]] ∧
    [Ty.funPtr .void [.int], Ty.int] ≠ [Ty.funPtr .void [.int, .int]] :=
  ⟨by decide, fun h => by simpa using congrArg List.length h⟩

/-- C1 (amended): mangling is injective across `(module, name)` variable
pairs, and across `(module, name, argTypes)` triples whose argument
types contain no function-pointer type (module segments and identifiers
being nonempty and not starting with a digit); with function-pointer
argument types the encoding is ambiguous (`C1_mangle_counterexample`). -/
theorem C1_mangling_injective :
    (∀ (m1 m2 : List (List Char)) (id1 id2 : List Char),
        (∀ a ∈ m1, validIdent a = true) → (∀ a ∈ m2, validIdent a = true) →
        validIdent id1 = true → validIdent id2 = true →
        mangleVarName m1 id1 = mangleVarName m2 id2 → m1 = m2 ∧ id1 = id2) ∧
    (∀ (m1 m2 : List (List Char)) (id1 id2 : List Char) (a1 a2 : List Ty),
        (∀ a ∈ m1, validIdent a = true) → (∀ a ∈ m2, validIdent a = true) →
        validIdent id1 = true → validIdent id2 = true →
        (∀ t ∈ a1, wfTy t = true) → (∀ t ∈ a2, wfTy t = true) →
        mangleFunctionName m1 id1 a1 = mangleFunctionName m2 id2 a2 →
        m1 = m2 ∧ id1 = id2 ∧ a1 = a2) := by
  constructor
  · intro m1 m2 id1 id2 hm1 hm2 hid1 hid2 h
    rw [mangleVarName_eq_chunks, mangleVarName_eq_chunks] at h
    have h' := (List.append_inj h rfl).2
    have hall1 : ∀ a ∈ m1 ++ [id1], validIdent a = true := by
      intro a ha
      rcases List.mem_append.mp ha with ha | ha
      · exact hm1 a ha
      · simp at ha; rw [ha]; exact hid1
    have hall2 : ∀ a ∈ m2 ++ [id2], validIdent a = true := by
      intro a ha
      rcases List.mem_append.mp ha with ha | ha
      · exact hm2 a ha
      · simp at ha; rw [ha]; exact hid2
    have hc := chunks_cancel (m1 ++ [id1]) (m2 ++ [id2]) [] []
      hall1 hall2 headNotDigit_nil headNotDigit_nil (by simpa using h')
    exact append_singleton_inj m1 m2 id1 id2 hc.1
  · intro m1 m2 id1 id2 a1 a2 hm1 hm2 hid1 hid2 ha1 ha2 h
    rw [mangleFunctionName_eq_chunks, mangleFunctionName_eq_chunks] at h
    have h' := (List.append_inj h rfl).2
    have hall1 : ∀ a ∈ m1 ++ [id1], validIdent a = true := by
      intro a ha
      rcases List.mem_append.mp ha with ha | ha
      · exact hm1 a ha
      · simp at ha; rw [ha]; exact hid1
    have hall2 : ∀ a ∈ m2 ++ [id2], validIdent a = true := by
      intro a ha
      rcases List.mem_append.mp ha with ha | ha
      · exact hm2 a ha
      · simp at ha; rw [ha]; exact hid2
    have hc := chunks_cancel (m1 ++ [id1]) (m2 ++ [id2])
      (mangleTypeString a1) (mangleTypeString a2) hall1 hall2
      (mangleTypeString_headNotDigit a1) (mangleTypeString_headNotDigit a2) h'
    obtain ⟨hmid, hargsenc⟩ := hc
    obtain ⟨hm, hid⟩ := append_singleton_inj m1 m2 id1 id2 hmid
    exact ⟨hm, hid, mangleTypeString_cancel a1 a2 ha1 ha2 hargsenc⟩

/-- witness for `C1_mangling_injective` at concrete inputs -/
theorem C1_mangling_injective_witness :
    ([['t', 'c']] = [['t', 'c']] ∧ ['x'] = ['x']) ∧
      ([['t', 'c']] = [['t', 'c']] ∧ ['f'] = ['f'] ∧
        ([Ty.int, Ty.ptr Ty.char] : List Ty) = [Ty.int, Ty.ptr Ty.char]) :=
  ⟨C1_mangling_injective.1 [['t', 'c']] [['t', 'c']] ['x'] ['x']
      (by decide) (by decide) (by decide) (by decide) rfl,
    C1_mangling_injective.2 [['t', 'c']] [['t', 'c']] ['f'] ['f']
      [Ty.int, Ty.ptr Ty.char] [Ty.int, Ty.ptr Ty.char]
      (by decide) (by decide) (by decide) (by decide) (by decide) (by decide) rfl⟩

/-! ## The parser (`src/src/main/parser/parser.c`)

Tokens follow the `TOKEN_NAMES` table (parser.c:31-143), which indexes
the lexer's `TokenType` enumeration; the lexer itself is an external
collaborator (spec §2) providing `lex` with a one-token `unLex`
pushback.  `PState` embeds the mutable `FileListEntry` (lexer state,
`errored` flag, `isCode` flag) together with the diagnostics printed to
stderr.  Node constructors mirror parser.c:186-457; `NT_BREAKSTMT` is
part of the syntax tree's `NodeType` enumeration (`ast/ast.h`, not under
`src/`; its older revision `src/OLD/src/main/ast/ast.h:97` lists it). -/

inductive TokenType where
  | TT_EOF
  | TT_MODULE | TT_IMPORT
  | TT_OPAQUE | TT_STRUCT | TT_UNION | TT_ENUM | TT_TYPEDEF
  | TT_IF | TT_ELSE | TT_WHILE | TT_DO | TT_FOR | TT_SWITCH | TT_CASE
  | TT_DEFAULT | TT_BREAK | TT_CONTINUE | TT_RETURN | TT_ASM | TT_CAST
  | TT_SIZEOF | TT_TRUE | TT_FALSE | TT_NULL
  | TT_VOID | TT_UBYTE | TT_BYTE | TT_CHAR | TT_USHORT | TT_SHORT
  | TT_UINT | TT_INT | TT_WCHAR | TT_ULONG | TT_LONG | TT_FLOAT
  | TT_DOUBLE | TT_BOOL | TT_CONST | TT_VOLATILE
  | TT_SEMI | TT_COMMA | TT_LPAREN | TT_RPAREN | TT_LSQUARE | TT_RSQUARE
  | TT_LBRACE | TT_RBRACE | TT_DOT | TT_ARROW
  | TT_INC | TT_DEC | TT_STAR | TT_AMP | TT_PLUS | TT_MINUS | TT_BANG
  | TT_TILDE | TT_NEGASSIGN | TT_LNOTASSIGN | TT_BITNOTASSIGN
  | TT_SLASH | TT_PERCENT | TT_LSHIFT | TT_ARSHIFT | TT_LRSHIFT
  | TT_SPACESHIP | TT_LANGLE | TT_RANGLE | TT_LTEQ | TT_GTEQ
  | TT_DOUBLEEQ | TT_NEQ | TT_PIPE | TT_CARET | TT_LAND | TT_LOR
  | TT_QUESTION | TT_COLON | TT_EQ
  | TT_MULASSIGN | TT_DIVASSIGN | TT_MODASSIGN | TT_ADDASSIGN
  | TT_SUBASSIGN | TT_LSHIFTASSIGN | TT_ARSHIFTASSIGN | TT_LRSHIFTASSIGN
  | TT_BITANDASSIGN | TT_BITXORASSIGN | TT_BITORASSIGN | TT_LANDASSIGN
  | TT_LORASSIGN
  | TT_SCOPE | TT_ID
  | TT_LIT_STRING | TT_LIT_WSTRING | TT_LIT_CHAR | TT_LIT_WCHAR
  | TT_LIT_INT_0 | TT_LIT_INT_B | TT_LIT_INT_O | TT_LIT_INT_D
  | TT_LIT_INT_H | TT_LIT_DOUBLE | TT_LIT_FLOAT
  | TT_BAD_STRING | TT_BAD_CHAR | TT_BAD_BIN | TT_BAD_HEX
deriving Repr, DecidableEq

structure Token where
  type : TokenType
  line : Nat
  character : Nat
  string : List Char
deriving Repr, DecidableEq

inductive NodeType where
  | NT_FILE | NT_MODULE | NT_IMPORT
  | NT_FUNDEFN | NT_VARDEFN | NT_FUNDECL | NT_VARDECL
  | NT_OPAQUEDECL | NT_STRUCTDECL | NT_UNIONDECL | NT_ENUMDECL
  | NT_TYPEDEFDECL
  | NT_COMPOUNDSTMT | NT_IFSTMT | NT_WHILESTMT | NT_DOWHILESTMT
  | NT_FORSTMT | NT_SWITCHSTMT | NT_BREAKSTMT | NT_CONTINUESTMT
  | NT_RETURNSTMT | NT_ASMSTMT | NT_VARDEFNSTMT | NT_EXPRESSIONSTMT
  | NT_NULLSTMT | NT_SWITCHCASE | NT_SWITCHDEFAULT
  | NT_BINOPEXP | NT_TERNARYEXP | NT_UNOPEXP | NT_FUNCALLEXP
  | NT_KEYWORDTYPE | NT_MODIFIEDTYPE | NT_ARRAYTYPE | NT_FUNPTRTYPE
  | NT_SCOPEDID | NT_ID
deriving Repr, DecidableEq

mutual
inductive PNode where
  | mk (ntype : NodeType) (line : Nat) (character : Nat) (d : PData)
inductive PData where
  | noData
  | file (module : PNode) (imports : List PNode) (bodies : List PNode)
  | moduleData (id : PNode)
  | importData (id : PNode)
  | varDefn (type : PNode) (names : List PNode) (initializers : List (Option PNode))
  | funDecl (returnType : PNode) (name : PNode) (argTypes : List PNode)
      (argNames : List (Option PNode)) (argDefaults : List (Option PNode))
  | varDecl (type : PNode) (names : List PNode)
  | opaqueDecl (name : PNode)
  | structDecl (name : PNode) (fields : List PNode)
  | unionDecl (name : PNode) (options : List PNode)
  | enumDecl (name : PNode) (constantNames : List PNode)
      (constantValues : List (Option PNode))
  | typedefDecl (originalType : PNode) (name : PNode)
  | scopedId (components : List PNode)
  | idData (id : List Char)
end

def PNode.ntype : PNode → NodeType
  | .mk t _ _ _ => t

def PNode.line : PNode → Nat
  | .mk _ l _ _ => l

def PNode.character : PNode → Nat
  | .mk _ _ c _ => c

def createFile (module : PNode) (imports bodies : List PNode) : PNode :=
  .mk .NT_FILE module.line module.character (.file module imports bodies)

def createModule (keyword : Token) (id : PNode) : PNode :=
  .mk .NT_MODULE keyword.line keyword.character (.moduleData id)

def createImport (keyword : Token) (id : PNode) : PNode :=
  .mk .NT_IMPORT keyword.line keyword.character (.importData id)

def createVarDefn (type : PNode) (names : List PNode)
    (initializers : List (Option PNode)) : PNode :=
  .mk .NT_VARDEFN type.line type.character (.varDefn type names initializers)

def createFunDecl (returnType name : PNode) (argTypes : List PNode)
    (argNames argDefaults : List (Option PNode)) : PNode :=
  .mk .NT_FUNDECL returnType.line returnType.character
    (.funDecl returnType name argTypes argNames argDefaults)

def createVarDecl (type : PNode) (names : List PNode) : PNode :=
  .mk .NT_VARDECL type.line type.character (.varDecl type names)

def createOpaqueDecl (keyword : Token) (name : PNode) : PNode :=
  .mk .NT_OPAQUEDECL keyword.line keyword.character (.opaqueDecl name)

def createStructDecl (keyword : Token) (name : PNode) (fields : List PNode) : PNode :=
  .mk .NT_STRUCTDECL keyword.line keyword.character (.structDecl name fields)

def createUnionDecl (keyword : Token) (name : PNode) (options : List PNode) : PNode :=
  .mk .NT_UNIONDECL keyword.line keyword.character (.unionDecl name options)

def createEnumDecl (keyword : Token) (name : PNode) (constantNames : List PNode)
    (constantValues : List (Option PNode)) : PNode :=
  .mk .NT_ENUMDECL keyword.line keyword.character
    (.enumDecl name constantNames constantValues)

def createTypedefDecl (keyword : Token) (originalType name : PNode) : PNode :=
  .mk .NT_TYPEDEFDECL keyword.line keyword.character (.typedefDecl originalType name)

/-- Embedding of `createBreatkStmt` (parser.c:324-327), exactly as the
source writes it: the node is tagged `NT_SWITCHSTMT`. -/
def createBreatkStmt (keyword : Token) : PNode :=
  .mk .NT_SWITCHSTMT keyword.line keyword.character .noData

def createContinueStmt (keyword : Token) : PNode :=
  .mk .NT_CONTINUESTMT keyword.line keyword.character .noData

def createScopedId (components : List PNode) : PNode :=
  match components with
  | first :: _ => .mk .NT_SCOPEDID first.line first.character (.scopedId components)
  | [] => .mk .NT_SCOPEDID 0 0 (.scopedId [])

def createId (id : Token) : PNode :=
  .mk .NT_ID id.line id.character (.idData id.string)

inductive DiagKind where
  | expectedToken (expected : TokenType)
  | expectedString (expected : String)
  | atLeastOneField
  | atLeastOneOption
  | atLeastOneEnumConstant
deriving Repr, DecidableEq

structure Diag where
  line : Nat
  character : Nat
  kind : DiagKind
deriving Repr, DecidableEq

/-- the mutable per-file parsing state: the lexer's one-token pushback
and remaining tokens, the `isCode` flag, the `errored` flag, and the
diagnostics printed so far -/
structure PState where
  pushback : Option Token
  toks : List Token
  isCode : Bool
  errored : Bool
  diags : List Diag
deriving Repr, DecidableEq

/-- the token the lexer reports at the end of input -/
def eofToken : Token := ⟨.TT_EOF, 0, 0, []⟩

/-- `lex`: pop the pushback if present, else the next token, else EOF -/
def lex (s : PState) : Token × PState :=
  match s.pushback with
  | some t => (t, { s with pushback := none })
  | none =>
    match s.toks with
    | t :: rest => (t, { s with toks := rest })
    | [] => (eofToken, s)

/-- `unLex`: the lexer's one-token pushback -/
def unLex (s : PState) (t : Token) : PState := { s with pushback := some t }

/-- Embedding of `errorExpectedToken` (parser.c:153-159). -/
def errorExpectedToken (s : PState) (expected : TokenType) (actual : Token) : PState :=
  { s with errored := true,
           diags := s.diags ++ [⟨actual.line, actual.character, .expectedToken expected⟩] }

/-- Embedding of `errorExpectedString` (parser.c:169-175). -/
def errorExpectedString (s : PState) (expected : String) (actual : Token) : PState :=
  { s with errored := true,
           diags := s.diags ++ [⟨actual.line, actual.character, .expectedString expected⟩] }

/-- Embedding of `panicTopLevel` (parser.c:479-518), exactly as the
source writes it: a semicolon is consumed; `TT_MODULE`, `TT_IMPORT`,
the listed type keywords (note: the source's list omits `TT_BYTE` and
`TT_SHORT`), `TT_ID`, `TT_OPAQUE`, `TT_STRUCT`, `TT_UNION`, `TT_ENUM`,
`TT_TYPEDEF` and `TT_EOF` are unread; every other token is discarded.
`none` means the fuel ran out. -/
def panicTopLevel : Nat → PState → Option PState
  | 0, _ => none
  | fuel + 1, s =>
    let (token, s1) := lex s
    match token.type with
    | .TT_SEMI => some s1
    | .TT_MODULE | .TT_IMPORT | .TT_VOID | .TT_UBYTE | .TT_CHAR | .TT_USHORT
    | .TT_UINT | .TT_INT | .TT_WCHAR | .TT_ULONG | .TT_LONG | .TT_FLOAT
    | .TT_DOUBLE | .TT_BOOL | .TT_ID | .TT_OPAQUE | .TT_STRUCT | .TT_UNION
    | .TT_ENUM | .TT_TYPEDEF | .TT_EOF => some (unLex s1 token)
    | _ => panicTopLevel fuel s1

/-- Embedding of the `::`-chained tail of `parseAnyId` (parser.c:553-573). -/
def parseAnyIdLoop : Nat → PState → List PNode → Option (Option PNode × PState)
  | 0, _, _ => none
  | fuel + 1, s, components =>
    let (idToken, s1) := lex s
    if idToken.type ≠ .TT_ID then
      some (none, unLex (errorExpectedToken s1 .TT_ID idToken) idToken)
    else
      let components := components ++ [createId idToken]
      let (scope, s2) := lex s1
      if scope.type ≠ .TT_SCOPE then
        some (some (createScopedId components), unLex s2 scope)
      else
        parseAnyIdLoop fuel s2 components

/-- Embedding of `parseAnyId` (parser.c:532-575). -/
def parseAnyId (fuel : Nat) (s : PState) : Option (Option PNode × PState) :=
  let (idToken, s1) := lex s
  if idToken.type ≠ .TT_ID then
    some (none, unLex (errorExpectedToken s1 .TT_ID idToken) idToken)
  else
    let (scope, s2) := lex s1
    if scope.type ≠ .TT_SCOPE then
      some (some (createId idToken), unLex s2 scope)
    else
      parseAnyIdLoop fuel s2 [createId idToken]

/-- Embedding of `parseId` (parser.c:585-596). -/
def parseId (s : PState) : Option PNode × PState :=
  let (idToken, s1) := lex s
  if idToken.type ≠ .TT_ID then
    (none, unLex (errorExpectedToken s1 .TT_ID idToken) idToken)
  else
    (some (createId idToken), s1)

/-- Embedding of `parseExtendedIntLiteral` (parser.c:606-608): an
unimplemented stub, `return NULL` consuming nothing. -/
def parseExtendedIntLiteral (s : PState) : Option PNode × PState := (none, s)

/-- Embedding of `parseLiteral` (parser.c:618-620): an unimplemented
stub, `return NULL` consuming nothing. -/
def parseLiteral (s : PState) : Option PNode × PState := (none, s)

/-- Embedding of `parseType` (parser.c:630-632): an unimplemented stub,
`return NULL` consuming nothing. -/
def parseType (s : PState) : Option PNode × PState := (none, s)

/-- Embedding of `parseModule` (parser.c:648-680). -/
def parseModule (fuel : Nat) (s : PState) : Option (Option PNode × PState) :=
  let (moduleKeyword, s1) := lex s
  if moduleKeyword.type ≠ .TT_MODULE then
    let s2 := unLex (errorExpectedToken s1 .TT_MODULE moduleKeyword) moduleKeyword
    (panicTopLevel fuel s2).map fun s3 => (none, s3)
  else
    match parseAnyId fuel s1 with
    | none => none
    | some (none, s2) => (panicTopLevel fuel s2).map fun s3 => (none, s3)
    | some (some id, s2) =>
      let (semicolon, s3) := lex s2
      if semicolon.type ≠ .TT_SEMI then
        let s4 := unLex (errorExpectedToken s3 .TT_SEMI semicolon) semicolon
        (panicTopLevel fuel s4).map fun s5 => (none, s5)
      else
        some (some (createModule moduleKeyword id), s3)

/-- Embedding of `parseImport` (parser.c:689-710). -/
def parseImport (fuel : Nat) (s : PState) (importKeyword : Token) :
    Option (Option PNode × PState) :=
  match parseAnyId fuel s with
  | none => none
  | some (none, s1) => (panicTopLevel fuel s1).map fun s2 => (none, s2)
  | some (some id, s1) =>
    let (semicolon, s2) := lex s1
    if semicolon.type ≠ .TT_SEMI then
      let s3 := unLex (errorExpectedToken s2 .TT_SEMI semicolon) semicolon
      (panicTopLevel fuel s3).map fun s4 => (none, s4)
    else
      some (some (createImport importKeyword id), s2)

/-- Embedding of the loop of `parseImports` (parser.c:720-735). -/
def parseImportsLoop : Nat → PState → List PNode → Option (List PNode × PState)
  | 0, _, _ => none
  | fuel + 1, s, imports =>
    let (importKeyword, s1) := lex s
    if importKeyword.type ≠ .TT_IMPORT then
      some (imports, unLex s1 importKeyword)
    else
      match parseImport fuel s1 importKeyword with
      | none => none
      | some (some imp, s2) => parseImportsLoop fuel s2 (imports ++ [imp])
      | some (none, s2) => parseImportsLoop fuel s2 imports

/-- Embedding of `parseImports` (parser.c:720-735). -/
def parseImports (fuel : Nat) (s : PState) : Option (List PNode × PState) :=
  parseImportsLoop fuel s []

/-- Embedding of the loop of `finishVarDecl` (parser.c:744-778); as in
the source, the parsed id is never inserted into `names`. -/
def finishVarDeclLoop : Nat → PState → PNode → List PNode → Option (Option PNode × PState)
  | 0, _, _, _ => none
  | fuel + 1, s, type, names =>
    match parseId s with
    | (none, s1) => (panicTopLevel fuel s1).map fun s2 => (none, s2)
    | (some _, s1) =>
      let (next, s2) := lex s1
      match next.type with
      | .TT_COMMA => finishVarDeclLoop fuel s2 type names
      | .TT_SEMI => some (some (createVarDecl type names), s2)
      | _ =>
        let s3 := unLex (errorExpectedString s2 "a comma or a semicolon" next) next
        (panicTopLevel fuel s3).map fun s4 => (none, s4)

/-- the trailing-semicolon epilogue of `finishFunDecl` (parser.c:957-973) -/
def finishFunDeclSemi (fuel : Nat) (s : PState) (returnType name : PNode)
    (argTypes : List PNode) (argNames argDefaults : List (Option PNode)) :
    Option (Option PNode × PState) :=
  let (semicolon, s1) := lex s
  if semicolon.type ≠ .TT_SEMI then
    let s2 := unLex (errorExpectedToken s1 .TT_SEMI semicolon) semicolon
    (panicTopLevel fuel s2).map fun s3 => (none, s3)
  else
    some (some (createFunDecl returnType name argTypes argNames argDefaults), s1)

set_option maxHeartbeats 1000000 in
/-- Embedding of the argument loop of `finishFunDecl` (parser.c:799-955). -/
def finishFunDeclArgsLoop : Nat → PState → PNode → PNode → List PNode →
    List (Option PNode) → List (Option PNode) → Option (Option PNode × PState)
  | 0, _, _, _, _, _, _ => none
  | fuel + 1, s, returnType, name, argTypes, argNames, argDefaults =>
    let (peek, s1) := lex s
    match peek.type with
    | .TT_VOID | .TT_UBYTE | .TT_CHAR | .TT_USHORT | .TT_UINT | .TT_INT
    | .TT_WCHAR | .TT_ULONG | .TT_LONG | .TT_FLOAT | .TT_DOUBLE | .TT_BOOL
    | .TT_ID =>
      let s2 := unLex s1 peek
      match parseType s2 with
      | (none, s3) => (panicTopLevel fuel s3).map fun s4 => (none, s4)
      | (some type, s3) =>
        let argTypes := argTypes ++ [type]
        let (peek2, s4) := lex s3
        match peek2.type with
        | .TT_ID =>
          let argNames := argNames ++ [some (createId peek2)]
          let (peek3, s5) := lex s4
          match peek3.type with
          | .TT_EQ =>
            match parseLiteral s5 with
            | (none, s6) =>
              (panicTopLevel fuel (unLex s6 peek3)).map fun s7 => (none, s7)
            | (some literal, s6) =>
              let argDefaults := argDefaults ++ [some literal]
              let (peek4, s7) := lex s6
              match peek4.type with
              | .TT_COMMA =>
                finishFunDeclArgsLoop fuel s7 returnType name argTypes argNames argDefaults
              | .TT_RPAREN =>
                finishFunDeclSemi fuel s7 returnType name argTypes argNames argDefaults
              | _ =>
                let s8 := unLex
                  (errorExpectedString s7 "a comma or a right parenthesis" peek4) peek4
                (panicTopLevel fuel s8).map fun s9 => (none, s9)
          | .TT_COMMA =>
            finishFunDeclArgsLoop fuel s5 returnType name argTypes argNames
              (argDefaults ++ [none])
          | .TT_RPAREN =>
            finishFunDeclSemi fuel s5 returnType name argTypes argNames
              (argDefaults ++ [none])
          | _ =>
            let s6 := unLex
              (errorExpectedString s5 "an equals sign, a comma, or a right parenthesis"
                peek3) peek3
            (panicTopLevel fuel s6).map fun s7 => (none, s7)
        | .TT_COMMA =>
          finishFunDeclArgsLoop fuel s4 returnType name argTypes
            (argNames ++ [none]) (argDefaults ++ [none])
        | .TT_RPAREN =>
          finishFunDeclSemi fuel s4 returnType name argTypes
            (argNames ++ [none]) (argDefaults ++ [none])
        | _ =>
          let s5 := unLex
            (errorExpectedString s4 "an id, a comma, or a right parenthesis" peek2) peek2
          (panicTopLevel fuel s5).map fun s6 => (none, s6)
    | _ =>
      let s2 := unLex (errorExpectedString s1 "a type" peek) peek
      (panicTopLevel fuel s2).map fun s3 => (none, s3)

/-- Embedding of `finishFunDecl` (parser.c:787-974). -/
def finishFunDecl (fuel : Nat) (s : PState) (returnType name : PNode) :
    Option (Option PNode × PState) :=
  let (peek, s1) := lex s
  if peek.type = .TT_RPAREN then
    finishFunDeclSemi fuel s1 returnType name [] [] []
  else
    finishFunDeclArgsLoop fuel (unLex s1 peek) returnType name [] [] []

/-- Embedding of `parseFunOrVarDecl` (parser.c:983-1029). -/
def parseFunOrVarDecl (fuel : Nat) (s : PState) (start : Token) :
    Option (Option PNode × PState) :=
  let s0 := unLex s start
  match parseType s0 with
  | (none, s1) => (panicTopLevel fuel s1).map fun s2 => (none, s2)
  | (some type, s1) =>
    match parseId s1 with
    | (none, s2) => (panicTopLevel fuel s2).map fun s3 => (none, s3)
    | (some id, s2) =>
      let (next, s3) := lex s2
      match next.type with
      | .TT_SEMI => some (some (createVarDecl type [id]), s3)
      | .TT_COMMA => finishVarDeclLoop fuel s3 type [id]
      | .TT_LPAREN => finishFunDecl fuel s3 type id
      | _ =>
        let s4 := unLex
          (errorExpectedString s3 "a semicolon, comma, or a left paren" next) next
        (panicTopLevel fuel s4).map fun s5 => (none, s5)

/-- Embedding of `finishVarDefn` (parser.c:1042-1045): an unimplemented
stub, `return NULL` consuming nothing. -/
def finishVarDefn (s : PState) : Option PNode × PState := (none, s)

/-- Embedding of `finishFunDeclOrDefn` (parser.c:1055-1058): an
unimplemented stub, `return NULL` consuming nothing. -/
def finishFunDeclOrDefn (s : PState) : Option PNode × PState := (none, s)

/-- Embedding of `parseFunOrVarDeclOrDefn` (parser.c:1067-1125). -/
def parseFunOrVarDeclOrDefn (fuel : Nat) (s : PState) (start : Token) :
    Option (Option PNode × PState) :=
  let s0 := unLex s start
  match parseType s0 with
  | (none, s1) => (panicTopLevel fuel s1).map fun s2 => (none, s2)
  | (some type, s1) =>
    match parseId s1 with
    | (none, s2) => (panicTopLevel fuel s2).map fun s3 => (none, s3)
    | (some id, s2) =>
      let (next, s3) := lex s2
      match next.type with
      | .TT_SEMI => some (some (createVarDefn type [id] [none]), s3)
      | .TT_COMMA => some (finishVarDefn s3)
      | .TT_EQ => some (finishVarDefn s3)
      | .TT_LPAREN => some (finishFunDeclOrDefn s3)
      | _ =>
        let s4 := unLex
          (errorExpectedString s3 "a semicolon, comma, or a left paren" next) next
        (panicTopLevel fuel s4).map fun s5 => (none, s5)

/-- Embedding of `parseOpaqueDecl` (parser.c:1134-1154). -/
def parseOpaqueDecl (fuel : Nat) (s : PState) (start : Token) :
    Option (Option PNode × PState) :=
  match parseId s with
  | (none, s1) => (panicTopLevel fuel s1).map fun s2 => (none, s2)
  | (some name, s1) =>
    let (semicolon, s2) := lex s1
    if semicolon.type ≠ .TT_SEMI then
      let s3 := unLex (errorExpectedToken s2 .TT_SEMI semicolon) semicolon
      (panicTopLevel fuel s3).map fun s4 => (none, s4)
    else
      some (some (createOpaqueDecl start name), s2)

/-- Embedding of the name loop of `parseFieldOrOptionDecl`
(parser.c:1174-1219). -/
def parseFieldNamesLoop : Nat → PState → PNode → List PNode → Option PNode × PState
  | 0, s, _, _ => (none, s)
  | fuel + 1, s, type, names =>
    let (id, s1) := lex s
    if id.type ≠ .TT_ID then
      (none, unLex (errorExpectedToken s1 .TT_ID id) id)
    else
      let names := names ++ [createId id]
      let (peek, s2) := lex s1
      match peek.type with
      | .TT_SEMI =>
        if names.length = 0 then (none, s2) else (some (createVarDecl type names), s2)
      | .TT_COMMA => parseFieldNamesLoop fuel s2 type names
      | _ =>
        (none, unLex (errorExpectedString s2 "a semicolon or a comma" peek) peek)

/-- Embedding of `parseFieldOrOptionDecl` (parser.c:1165-1220): a
context-ignorant parser, no recovery. -/
def parseFieldOrOptionDecl (fuel : Nat) (s : PState) (start : Token) :
    Option PNode × PState :=
  let s0 := unLex s start
  match parseType s0 with
  | (none, s1) => (none, s1)
  | (some type, s1) => parseFieldNamesLoop fuel s1 type []

/-- the zero-field check and epilogue of `parseStructDecl`
(parser.c:1296-1321): zero fields is a non-fatal error attributed to the
opening brace -/
def parseStructDeclEnd (fuel : Nat) (s : PState) (start : Token) (name : PNode)
    (lbrace : Token) (fields : List PNode) : Option (Option PNode × PState) :=
  if fields.length = 0 then
    some (none,
      { s with
          errored := true,
          diags := s.diags ++ [⟨lbrace.line, lbrace.character, .atLeastOneField⟩] })
  else
    let (semicolon, s1) := lex s
    if semicolon.type ≠ .TT_SEMI then
      let s2 := unLex (errorExpectedToken s1 .TT_SEMI semicolon) semicolon
      (panicTopLevel fuel s2).map fun s3 => (none, s3)
    else
      some (some (createStructDecl start name fields), s1)

/-- Embedding of the field loop of `parseStructDecl` (parser.c:1250-1294). -/
def parseStructDeclFields : Nat → PState → Token → PNode → Token → List PNode →
    Option (Option PNode × PState)
  | 0, _, _, _, _, _ => none
  | fuel + 1, s, start, name, lbrace, fields =>
    let (peek, s1) := lex s
    match peek.type with
    | .TT_VOID | .TT_UBYTE | .TT_CHAR | .TT_USHORT | .TT_UINT | .TT_INT
    | .TT_WCHAR | .TT_ULONG | .TT_LONG | .TT_FLOAT | .TT_DOUBLE | .TT_BOOL
    | .TT_ID =>
      match parseFieldOrOptionDecl fuel s1 peek with
      | (none, s2) => (panicTopLevel fuel s2).map fun s3 => (none, s3)
      | (some field, s2) =>
        parseStructDeclFields fuel s2 start name lbrace (fields ++ [field])
    | .TT_RBRACE => parseStructDeclEnd fuel s1 start name lbrace fields
    | _ =>
      let s2 := unLex (errorExpectedString s1 "a right brace or a field" peek) peek
      (panicTopLevel fuel s2).map fun s3 => (none, s3)

/-- Embedding of `parseStructDecl` (parser.c:1229-1322). -/
def parseStructDecl (fuel : Nat) (s : PState) (start : Token) :
    Option (Option PNode × PState) :=
  match parseId s with
  | (none, s1) => (panicTopLevel fuel s1).map fun s2 => (none, s2)
  | (some name, s1) =>
    let (lbrace, s2) := lex s1
    if lbrace.type ≠ .TT_LBRACE then
      let s3 := unLex (errorExpectedToken s2 .TT_LBRACE lbrace) lbrace
      (panicTopLevel fuel s3).map fun s4 => (none, s4)
    else
      parseStructDeclFields fuel s2 start name lbrace []

/-- the zero-option check and epilogue of `parseUnionDecl`
(parser.c:1398-1423) -/
def parseUnionDeclEnd (fuel : Nat) (s : PState) (start : Token) (name : PNode)
    (lbrace : Token) (options : List PNode) : Option (Option PNode × PState) :=
  if options.length = 0 then
    some (none,
      { s with
          errored := true,
          diags := s.diags ++ [⟨lbrace.line, lbrace.character, .atLeastOneOption⟩] })
  else
    let (semicolon, s1) := lex s
    if semicolon.type ≠ .TT_SEMI then
      let s2 := unLex (errorExpectedToken s1 .TT_SEMI semicolon) semicolon
      (panicTopLevel fuel s2).map fun s3 => (none, s3)
    else
      some (some (createUnionDecl start name options), s1)

/-- Embedding of the option loop of `parseUnionDecl` (parser.c:1352-1396). -/
def parseUnionDeclOptions : Nat → PState → Token → PNode → Token → List PNode →
    Option (Option PNode × PState)
  | 0, _, _, _, _, _ => none
  | fuel + 1, s, start, name, lbrace, options =>
    let (peek, s1) := lex s
    match peek.type with
    | .TT_VOID | .TT_UBYTE | .TT_CHAR | .TT_USHORT | .TT_UINT | .TT_INT
    | .TT_WCHAR | .TT_ULONG | .TT_LONG | .TT_FLOAT | .TT_DOUBLE | .TT_BOOL
    | .TT_ID =>
      match parseFieldOrOptionDecl fuel s1 peek with
      | (none, s2) => (panicTopLevel fuel s2).map fun s3 => (none, s3)
      | (some opt, s2) =>
        parseUnionDeclOptions fuel s2 start name lbrace (options ++ [opt])
    | .TT_RBRACE => parseUnionDeclEnd fuel s1 start name lbrace options
    | _ =>
      let s2 := unLex (errorExpectedString s1 "a right brace or an option" peek) peek
      (panicTopLevel fuel s2).map fun s3 => (none, s3)

/-- Embedding of `parseUnionDecl` (parser.c:1331-1424). -/
def parseUnionDecl (fuel : Nat) (s : PState) (start : Token) :
    Option (Option PNode × PState) :=
  match parseId s with
  | (none, s1) => (panicTopLevel fuel s1).map fun s2 => (none, s2)
  | (some name, s1) =>
    let (lbrace, s2) := lex s1
    if lbrace.type ≠ .TT_LBRACE then
      let s3 := unLex (errorExpectedToken s2 .TT_LBRACE lbrace) lbrace
      (panicTopLevel fuel s3).map fun s4 => (none, s4)
    else
      parseUnionDeclOptions fuel s2 start name lbrace []

/-- the zero-constant check and epilogue of `parseEnumDecl`
(parser.c:1549-1578); unlike struct/union, the zero-constant error also
panics -/
def parseEnumDeclEnd (fuel : Nat) (s : PState) (start : Token) (name : PNode)
    (lbrace : Token) (constantNames : List PNode)
    (constantValues : List (Option PNode)) : Option (Option PNode × PState) :=
  if constantNames.length = 0 then
    let s1 :=
      { s with
          errored := true,
          diags := s.diags ++ [⟨lbrace.line, lbrace.character, .atLeastOneEnumConstant⟩] }
    (panicTopLevel fuel s1).map fun s2 => (none, s2)
  else
    let (semicolon, s1) := lex s
    if semicolon.type ≠ .TT_SEMI then
      let s2 := unLex (errorExpectedToken s1 .TT_SEMI semicolon) semicolon
      (panicTopLevel fuel s2).map fun s3 => (none, s3)
    else
      some (some (createEnumDecl start name constantNames constantValues), s1)

set_option maxHeartbeats 1000000 in
/-- Embedding of the constant loop of `parseEnumDecl` (parser.c:1455-1547). -/
def parseEnumDeclConstants : Nat → PState → Token → PNode → Token → List PNode →
    List (Option PNode) → Option (Option PNode × PState)
  | 0, _, _, _, _, _, _ => none
  | fuel + 1, s, start, name, lbrace, constantNames, constantValues =>
    let (peek, s1) := lex s
    match peek.type with
    | .TT_ID =>
      let constantNames := constantNames ++ [createId peek]
      let (peek2, s2) := lex s1
      match peek2.type with
      | .TT_EQ =>
        match parseExtendedIntLiteral s2 with
        | (none, s3) => (panicTopLevel fuel s3).map fun s4 => (none, s4)
        | (some literal, s3) =>
          let constantValues := constantValues ++ [some literal]
          let (peek3, s4) := lex s3
          match peek3.type with
          | .TT_COMMA =>
            parseEnumDeclConstants fuel s4 start name lbrace constantNames constantValues
          | .TT_RBRACE =>
            parseEnumDeclEnd fuel s4 start name lbrace constantNames constantValues
          | _ =>
            let s5 := unLex
              (errorExpectedString s4 "a comma or a right brace" peek3) peek3
            (panicTopLevel fuel s5).map fun s6 => (none, s6)
      | .TT_COMMA =>
        parseEnumDeclConstants fuel s2 start name lbrace constantNames
          (constantValues ++ [none])
      | .TT_RBRACE =>
        parseEnumDeclEnd fuel s2 start name lbrace constantNames
          (constantValues ++ [none])
      | _ =>
        let s3 := unLex
          (errorExpectedString s2 "a comma, an equals sign, or a right brace" peek2) peek2
        (panicTopLevel fuel s3).map fun s4 => (none, s4)
    | .TT_RBRACE => parseEnumDeclEnd fuel s1 start name lbrace constantNames constantValues
    | _ =>
      let s2 := unLex
        (errorExpectedString s1 "a right brace or an enumeration constant" peek) peek
      (panicTopLevel fuel s2).map fun s3 => (none, s3)

/-- Embedding of `parseEnumDecl` (parser.c:1433-1579). -/
def parseEnumDecl (fuel : Nat) (s : PState) (start : Token) :
    Option (Option PNode × PState) :=
  match parseId s with
  | (none, s1) => (panicTopLevel fuel s1).map fun s2 => (none, s2)
  | (some name, s1) =>
    let (lbrace, s2) := lex s1
    if lbrace.type ≠ .TT_LBRACE then
      let s3 := unLex (errorExpectedToken s2 .TT_LBRACE lbrace) lbrace
      (panicTopLevel fuel s3).map fun s4 => (none, s4)
    else
      parseEnumDeclConstants fuel s2 start name lbrace [] []

/-- Embedding of `parseTypedefDecl` (parser.c:1588-1618). -/
def parseTypedefDecl (fuel : Nat) (s : PState) (start : Token) :
    Option (Option PNode × PState) :=
  match parseType s with
  | (none, s1) => (panicTopLevel fuel s1).map fun s2 => (none, s2)
  | (some originalType, s1) =>
    match parseId s1 with
    | (none, s2) => (panicTopLevel fuel s2).map fun s3 => (none, s3)
    | (some name, s2) =>
      let (semicolon, s3) := lex s2
      if semicolon.type ≠ .TT_SEMI then
        let s4 := unLex (errorExpectedToken s3 .TT_SEMI semicolon) semicolon
        (panicTopLevel fuel s4).map fun s5 => (none, s5)
      else
        some (some (createTypedefDecl start originalType name), s3)

/-- Embedding of the loop of `parseBodies` (parser.c:1629-1695). -/
def parseBodiesLoop : Nat → PState → List PNode → Option (List PNode × PState)
  | 0, _, _ => none
  | fuel + 1, s, bodies =>
    let (start, s1) := lex s
    match start.type with
    | .TT_VOID | .TT_UBYTE | .TT_CHAR | .TT_USHORT | .TT_UINT | .TT_INT
    | .TT_WCHAR | .TT_ULONG | .TT_LONG | .TT_FLOAT | .TT_DOUBLE | .TT_BOOL
    | .TT_ID =>
      match (if s1.isCode then parseFunOrVarDeclOrDefn fuel s1 start
             else parseFunOrVarDecl fuel s1 start) with
      | none => none
      | some (some decl, s2) => parseBodiesLoop fuel s2 (bodies ++ [decl])
      | some (none, s2) => parseBodiesLoop fuel s2 bodies
    | .TT_OPAQUE =>
      match parseOpaqueDecl fuel s1 start with
      | none => none
      | some (some decl, s2) => parseBodiesLoop fuel s2 (bodies ++ [decl])
      | some (none, s2) => parseBodiesLoop fuel s2 bodies
    | .TT_STRUCT =>
      match parseStructDecl fuel s1 start with
      | none => none
      | some (some decl, s2) => parseBodiesLoop fuel s2 (bodies ++ [decl])
      | some (none, s2) => parseBodiesLoop fuel s2 bodies
    | .TT_UNION =>
      match parseUnionDecl fuel s1 start with
      | none => none
      | some (some decl, s2) => parseBodiesLoop fuel s2 (bodies ++ [decl])
      | some (none, s2) => parseBodiesLoop fuel s2 bodies
    | .TT_ENUM =>
      match parseEnumDecl fuel s1 start with
      | none => none
      | some (some decl, s2) => parseBodiesLoop fuel s2 (bodies ++ [decl])
      | some (none, s2) => parseBodiesLoop fuel s2 bodies
    | .TT_TYPEDEF =>
      match parseTypedefDecl fuel s1 start with
      | none => none
      | some (some decl, s2) => parseBodiesLoop fuel s2 (bodies ++ [decl])
      | some (none, s2) => parseBodiesLoop fuel s2 bodies
    | .TT_EOF => some (bodies, s1)
    | _ =>
      let s2 := unLex (errorExpectedString s1 "a declaration" start) start
      match panicTopLevel fuel s2 with
      | none => none
      | some s3 => parseBodiesLoop fuel s3 bodies

/-- Embedding of `parseBodies` (parser.c:1629-1695). -/
def parseBodies (fuel : Nat) (s : PState) : Option (List PNode × PState) :=
  parseBodiesLoop fuel s []

/-- Embedding of `parseFile` (parser.c:1703-1716): the module line,
the imports and the bodies are parsed in that order; the result is
`NULL` exactly when the module node is `NULL`. -/
def parseFile (fuel : Nat) (s : PState) : Option (Option PNode × PState) :=
  match parseModule fuel s with
  | none => none
  | some (moduleNode, s1) =>
    match parseImports fuel s1 with
    | none => none
    | some (imports, s2) =>
      match parseBodies fuel s2 with
      | none => none
      | some (bodies, s3) =>
        match moduleNode with
        | none => some (none, s3)
        | some m => some (some (createFile m imports bodies), s3)

/-- C2: evaluating the source's `createBreatkStmt` shows the node built
for a `break` statement is tagged `NT_SWITCHSTMT`, which differs from
`NT_BREAKSTMT`, while `createContinueStmt` tags `NT_CONTINUESTMT`; the
claim that a parsed break statement's node type equals the break kind is
violated by the code. -/
theorem C2_createBreatkStmt_switch_tag :
    (createBreatkStmt ⟨.TT_BREAK, 3, 5, []⟩).ntype = NodeType.NT_SWITCHSTMT ∧
    NodeType.NT_SWITCHSTMT ≠ NodeType.NT_BREAKSTMT ∧
    (createContinueStmt ⟨.TT_CONTINUE, 3, 5, []⟩).ntype = NodeType.NT_CONTINUESTMT := by
  exact ⟨rfl, by decide, rfl⟩

/-- C3: `panicTopLevel` discards `byte` and `short`.  On the stream
`byte ;` (resp. `short ;`) it consumes both tokens, discarding the type
keyword and then consuming the semicolon, instead of unreading the type
keyword as the claim requires; on `int ;` it unreads the `int` and
stops, as it does for the type keywords that are in its boundary list. -/
theorem C3_panicTopLevel_discards_byte_short :
    panicTopLevel 5 ⟨none, [⟨.TT_BYTE, 1, 1, []⟩, ⟨.TT_SEMI, 1, 6, []⟩], true, false, []⟩
      = some ⟨none, [], true, false, []⟩ ∧
    panicTopLevel 5 ⟨none, [⟨.TT_SHORT, 1, 1, []⟩, ⟨.TT_SEMI, 1, 7, []⟩], true, false, []⟩
      = some ⟨none, [], true, false, []⟩ ∧
    panicTopLevel 5 ⟨none, [⟨.TT_INT, 1, 1, []⟩, ⟨.TT_SEMI, 1, 5, []⟩], true, false, []⟩
      = some ⟨some ⟨.TT_INT, 1, 1, []⟩, [⟨.TT_SEMI, 1, 5, []⟩], true, false, []⟩ := by
  exact ⟨rfl, rfl, rfl⟩

/-- C8: a struct or union declaration whose brace-enclosed body has zero
fields/options makes the parser emit a diagnostic at the line and column
of the opening brace, set the errored flag, and return no node; the
error is non-fatal: in `parseBodies` the next top-level form is still
parsed (here, an `opaque` declaration after a zero-field struct). -/
theorem C8_zero_field_struct_union :
    (∀ (g nl nc : Nat) (ns : List Char) (bl bc : Nat) (bs : List Char)
        (rl rc : Nat) (rs : List Char) (rest : List Token) (isCode err : Bool)
        (dg : List Diag) (startTok : Token),
      parseStructDecl (g + 1)
          ⟨none, ⟨.TT_ID, nl, nc, ns⟩ :: ⟨.TT_LBRACE, bl, bc, bs⟩ ::
            ⟨.TT_RBRACE, rl, rc, rs⟩ :: rest, isCode, err, dg⟩ startTok
        = some (none, ⟨none, rest, isCode, true, dg ++ [⟨bl, bc, .atLeastOneField⟩]⟩)) ∧
    (∀ (g nl nc : Nat) (ns : List Char) (bl bc : Nat) (bs : List Char)
        (rl rc : Nat) (rs : List Char) (rest : List Token) (isCode err : Bool)
        (dg : List Diag) (startTok : Token),
      parseUnionDecl (g + 1)
          ⟨none, ⟨.TT_ID, nl, nc, ns⟩ :: ⟨.TT_LBRACE, bl, bc, bs⟩ ::
            ⟨.TT_RBRACE, rl, rc, rs⟩ :: rest, isCode, err, dg⟩ startTok
        = some (none, ⟨none, rest, isCode, true, dg ++ [⟨bl, bc, .atLeastOneOption⟩]⟩)) ∧
    (parseBodies 10
        ⟨none, [⟨.TT_STRUCT, 1, 1, []⟩, ⟨.TT_ID, 1, 8, ['S']⟩, ⟨.TT_LBRACE, 1, 10, []⟩,
          ⟨.TT_RBRACE, 1, 12, []⟩, ⟨.TT_SEMI, 1, 13, []⟩, ⟨.TT_OPAQUE, 2, 1, []⟩,
          ⟨.TT_ID, 2, 8, ['T']⟩, ⟨.TT_SEMI, 2, 9, []⟩], true, false, []⟩).map
        (fun r => (r.1.map PNode.ntype, r.2.errored))
      = some ([.NT_OPAQUEDECL], true) := by
  refine ⟨fun g nl nc ns bl bc bs rl rc rs rest isCode err dg startTok => rfl,
    fun g nl nc ns bl bc bs rl rc rs rest isCode err dg startTok => rfl, by decide⟩

/-- helper for C10: once the parser has unread the `int` that begins a
declaration, `parseBodies` loops forever: `parseType` is a stub that
consumes nothing and `panicTopLevel` unreads the type keyword again, so
one iteration returns to exactly the same state. -/
theorem parseBodiesLoop_int_diverges :
    ∀ (fuel : Nat) (bodies : List PNode) (err : Bool) (dg : List Diag),
      parseBodiesLoop fuel ⟨some ⟨.TT_INT, 1, 1, []⟩, [], true, err, dg⟩ bodies = none := by
  intro fuel
  induction fuel with
  | zero => intro bodies err dg; rfl
  | succ g ih =>
    intro bodies err dg
    cases g with
    | zero => rfl
    | succ k =>
      have h : parseBodiesLoop (k + 2) ⟨some ⟨.TT_INT, 1, 1, []⟩, [], true, err, dg⟩ bodies
          = parseBodiesLoop (k + 1) ⟨some ⟨.TT_INT, 1, 1, []⟩, [], true, err, dg⟩ bodies := rfl
      rw [h]
      exact ih bodies err dg

/-- C10: on the code file `int` (a declaration starting with a type
keyword), `parseFile` never returns for any recursion fuel: the module
line errors out and is recovered, the imports finish, and then
`parseBodies` re-reads the `int` token forever because the `parseType`
stub consumes nothing; the token stream is never consumed through EOF
and no NULL result is ever produced. -/
theorem C10_parseFile_diverges_on_decl :
    ∀ fuel : Nat, parseFile fuel ⟨none, [⟨.TT_INT, 1, 1, []⟩], true, false, []⟩ = none := by
  intro fuel
  match fuel with
  | 0 => rfl
  | g + 1 =>
    have hb := parseBodiesLoop_int_diverges (g + 1) [] true
      [⟨1, 1, .expectedToken .TT_MODULE⟩]
    have hred : parseFile (g + 1) ⟨none, [⟨.TT_INT, 1, 1, []⟩], true, false, []⟩
        = (match parseBodiesLoop (g + 1)
              ⟨some ⟨.TT_INT, 1, 1, []⟩, [], true, true,
                [⟨1, 1, .expectedToken .TT_MODULE⟩]⟩ [] with
           | none => none
           | some (_, s3) => some (none, s3)) := rfl
    rw [hred, hb]

/-! ## The translator (`src/src/main/translate/translate.c`)

The IR data model follows `src/src/main/ir/ir.h` (operand kinds
`OK_TEMP` … `OK_STACKOFFSET`, operators `IO_CONST` … `IO_RETURN`,
three-address entries).  The shorthand constructors (`ir/shorthand.h`,
not under `src/`) are written out as the `ir.h` entry constructors they
expand to (ir.h:172-196).  The target width constants are declared in
`src/src/main/constants.h` and defined by the architecture layer, which
is not under `src/`. -/

/-- Modelled from the spec: the target size table of §6.1 for the
x86_64 target (`constants.h` declares the names; the defining
translation unit is not under `src/`). -/
def BYTE_WIDTH : Nat := 1

/-- Modelled from the spec: §6.1. -/
def SHORT_WIDTH : Nat := 2

/-- Modelled from the spec: §6.1. -/
def INT_WIDTH : Nat := 4

/-- Modelled from the spec: §6.1. -/
def LONG_WIDTH : Nat := 8

/-- Modelled from the spec: §6.1. -/
def FLOAT_WIDTH : Nat := 4

/-- Modelled from the spec: §6.1. -/
def DOUBLE_WIDTH : Nat := 8

/-- Modelled from the spec: §6.1, pointer ≤ long; 8 on x86_64. -/
def POINTER_WIDTH : Nat := 8

/-- Modelled from the spec: §6.1, char ≥ byte; 1 on x86_64. -/
def CHAR_WIDTH : Nat := 1

/-- Modelled from the spec: §6.1, wchar ≥ int; 4 on x86_64. -/
def WCHAR_WIDTH : Nat := 4

inductive AllocHint where
  | AH_GP | AH_MEM | AH_SSE
deriving Repr, DecidableEq

inductive IROperator where
  | IO_CONST | IO_ASM | IO_LABEL
  | IO_MOVE | IO_MEM_STORE | IO_MEM_LOAD | IO_STK_STORE | IO_STK_LOAD
  | IO_OFFSET_STORE | IO_OFFSET_LOAD
  | IO_ADD | IO_FP_ADD | IO_SUB | IO_FP_SUB | IO_SMUL | IO_UMUL | IO_FP_MUL
  | IO_SDIV | IO_UDIV | IO_FP_DIV | IO_SMOD | IO_UMOD
  | IO_NEG
  | IO_JUMP
  | IO_JL | IO_JLE | IO_JE | IO_JNE | IO_JGE | IO_JG
  | IO_CALL | IO_RETURN
deriving Repr, DecidableEq

inductive IROperand where
  | temp (n size alignment : Nat) (hint : AllocHint)
  | reg (n : Nat)
  | constant (bits : Nat)
  | name (name : List Char)
  | assembly (assembly : List Char)
  | stringData (data : List Nat)
  | wstringData (data : List Nat)
  | stackOffset (offset : Int)
deriving Repr, DecidableEq

structure IREntry where
  op : IROperator
  opSize : Nat
  dest : Option IROperand
  arg1 : Option IROperand
  arg2 : Option IROperand
deriving Repr, DecidableEq

/-- two's-complement bits of a signed value of `w` bytes
(ir.c `punSignedToUnsigned*`) -/
def punSigned (w : Nat) (v : Int) : Nat := (v % (2 ^ (8 * w) : Nat)).toNat

/-- `UBYTE(x)`: `ubyteIROperandCreate` (ir.h:78) -/
def UBYTE (v : Nat) : IROperand := .constant v

/-- `BYTE(x)`: `byteIROperandCreate` (ir.h:79) -/
def BYTE (v : Int) : IROperand := .constant (punSigned 1 v)

/-- `USHORT(x)`: `ushortIROperandCreate` (ir.h:80) -/
def USHORT (v : Nat) : IROperand := .constant v

/-- `SHORT(x)`: `shortIROperandCreate` (ir.h:81) -/
def SHORT (v : Int) : IROperand := .constant (punSigned 2 v)

/-- `UINT(x)`: `uintIROperandCreate` (ir.h:82) -/
def UINT (v : Nat) : IROperand := .constant v

/-- `INT(x)`: `intIROperandCreate` (ir.h:83) -/
def INT (v : Int) : IROperand := .constant (punSigned 4 v)

/-- `ULONG(x)`: `ulongIROperandCreate` (ir.h:84) -/
def ULONG (v : Nat) : IROperand := .constant v

/-- `LONG(x)`: `longIROperandCreate` (ir.h:85) -/
def LONG (v : Int) : IROperand := .constant (punSigned 8 v)

/-- `FLOAT(bits)`: `floatIROperandCreate` (ir.h:86) -/
def FLOAT (bits : Nat) : IROperand := .constant bits

/-- `DOUBLE(bits)`: `doubleIROperandCreate` (ir.h:87) -/
def DOUBLE (bits : Nat) : IROperand := .constant bits

/-- `NAME(n)`: `nameIROperandCreate` (ir.h:88) -/
def NAME (n : List Char) : IROperand := .name n

/-- `TEMP(n, size, alignment, kind)`: `tempIROperandCreate` (ir.h:75) -/
def TEMP (n size alignment : Nat) (hint : AllocHint) : IROperand :=
  .temp n size alignment hint

/-- `CONST(size, c)`: `constantIREntryCreate` (ir.h:172) -/
def CONST (size : Nat) (c : IROperand) : IREntry := ⟨.IO_CONST, size, none, some c, none⟩

/-- `ASM(a)`: `asmIREntryCreate` (ir.h:173) -/
def ASM (a : List Char) : IREntry := ⟨.IO_ASM, 0, none, some (.assembly a), none⟩

/-- `LABEL(l)`: `labelIREntryCreate` (ir.h:174) on a name operand -/
def LABEL (l : List Char) : IREntry := ⟨.IO_LABEL, 0, none, some (.name l), none⟩

/-- `MOVE(size, dest, src)`: `moveIREntryCreate` (ir.h:175) -/
def MOVE (size : Nat) (dest src : IROperand) : IREntry :=
  ⟨.IO_MOVE, size, some dest, some src, none⟩

/-- `MEM_LOAD(size, dest, srcAddr)`: `memLoadIREntryCreate` (ir.h:178) -/
def MEM_LOAD (size : Nat) (dest srcAddr : IROperand) : IREntry :=
  ⟨.IO_MEM_LOAD, size, some dest, some srcAddr, none⟩

/-- `JUMP(l)`: `jumpIREntryCreate` (ir.h:192) on a name operand -/
def JUMP (l : List Char) : IREntry := ⟨.IO_JUMP, 0, some (.name l), none, none⟩

/-- a fragment (ir/frame-level output unit; translate.c:35-64); the text
fragment's frame pointer is a collaborator handle and carries no data
relevant to the emitted IR -/
inductive Fragment where
  | bss (label : List Char) (size alignment : Nat)
  | rodata (label : List Char) (alignment : Nat) (ir : List IREntry)
  | data (label : List Char) (alignment : Nat) (ir : List IREntry)
  | text (label : List Char) (ir : List IREntry)
deriving Repr, DecidableEq

def Fragment.label : Fragment → List Char
  | .bss l _ _ => l
  | .rodata l _ _ => l
  | .data l _ _ => l
  | .text l _ => l

/-- Modelled from the spec: the label generators (§5, §8: per-driver
monotonic counter, two flavors distinguished by prefix, presented as
`L_code_NNN` and `L_data_NNN`); the `LabelGenerator` collaborator is not
under `src/`.  `NEW_LABEL` / `generateCodeLabel`. -/
def generateCodeLabel (n : Nat) : List Char × Nat := ("L_code_".data ++ natRepr n, n + 1)

/-- Modelled from the spec: `NEW_DATA_LABEL` / `generateDataLabel`, see
`generateCodeLabel`. -/
def generateDataLabel (n : Nat) : List Char × Nat := ("L_data_".data ++ natRepr n, n + 1)

/-- `NEW(tempAllocator)`: `tempAllocatorAllocate` (ir.h:216), a linear
counter -/
def tempAllocatorAllocate (n : Nat) : Nat × Nat := (n, n + 1)

/-- Embedding of `typeKindof` (translate.c:110-150).  The source maps
`K_STRUCT`/`K_UNION` to `AH_MEM`, `K_ENUM` to `AH_GP` and chases
`K_TYPEDEF` through its referenced entry; the embedding's merged
reference constructor would need the symbol table (not under `src/`) to
distinguish those, and no claim evaluates `typeKindof` on a reference
type, so references answer `AH_GP` here. -/
def typeKindof : Ty → AllocHint
  | .ubyte | .byte | .bool | .char | .ushort | .short | .uint | .int
  | .wchar | .ulong | .long | .ptr _ | .funPtr _ _ => .AH_GP
  | .float | .double => .AH_SSE
  | .const t => typeKindof t
  | _ => .AH_GP

/-- Modelled from the spec: `typeSizeof` (declared by the type module,
defined outside `src/`): the §6.1 width table, qualified types the size
of their base (§8), pointers and function pointers `POINTER_WIDTH`,
arrays length times element size.  Reference types need the symbol
table, absent from `src/`; no claim evaluates them, they answer 0. -/
def typeSizeof : Ty → Nat
  | .void => 0
  | .ubyte | .byte | .bool => BYTE_WIDTH
  | .char => CHAR_WIDTH
  | .ushort | .short => SHORT_WIDTH
  | .uint | .int => INT_WIDTH
  | .wchar => WCHAR_WIDTH
  | .ulong | .long => LONG_WIDTH
  | .float => FLOAT_WIDTH
  | .double => DOUBLE_WIDTH
  | .ptr _ | .funPtr _ _ => POINTER_WIDTH
  | .const t => typeSizeof t
  | .array n t => n * typeSizeof t
  | .named _ _ => 0

/-- Modelled from the spec: `typeAlignof`, scalar alignments equal to
their widths on x86_64, qualified types the alignment of their base
(§8), arrays that of their element.  Reference types need the symbol
table, absent from `src/`; no claim evaluates them, they answer 0. -/
def typeAlignof : Ty → Nat
  | .void => 0
  | .ubyte | .byte | .bool => BYTE_WIDTH
  | .char => CHAR_WIDTH
  | .ushort | .short => SHORT_WIDTH
  | .uint | .int => INT_WIDTH
  | .wchar => WCHAR_WIDTH
  | .ulong | .long => LONG_WIDTH
  | .float => FLOAT_WIDTH
  | .double => DOUBLE_WIDTH
  | .ptr _ | .funPtr _ _ => POINTER_WIDTH
  | .const t => typeAlignof t
  | .array _ t => typeAlignof t
  | .named _ _ => 0

/-- Embedding of `codeFilenameToAssembyFilename` (translate.c:153-159):
the filename is copied and its last two characters are overwritten with
`'s'` and a terminating NUL, so the result is the first `len - 2`
characters followed by `'s'`. -/
def codeFilenameToAssembyFilename (codeFilename : List Char) : List Char :=
  codeFilename.take (codeFilename.length - 2) ++ ['s']

/-- the `constExp` payload: `ConstType` tag and value
(`ast.h` `constExp`, as read by translate.c:358-541 and 827-891) -/
inductive ConstVal where
  | ubyteVal (v : Nat)
  | byteVal (v : Int)
  | charVal (v : Nat)
  | ushortVal (v : Nat)
  | shortVal (v : Int)
  | uintVal (v : Nat)
  | intVal (v : Int)
  | wcharVal (v : Nat)
  | ulongVal (v : Nat)
  | longVal (v : Int)
  | floatBits (v : Nat)
  | doubleBits (v : Nat)
  | boolVal (v : Bool)
  | stringVal (v : List Nat)
  | wstringVal (v : List Nat)
  | nullVal
deriving Repr, DecidableEq

/-- the `Access` collaborator (spec §4.5; `ir/frame.h` is interface
only): `load`/`store` receive the output vector and the temp allocator
and return what they appended; `label` is `getLabel`, the mangled label
of a global access -/
structure AccessM where
  load : List IREntry → Nat → List IREntry × Nat × IROperand
  store : List IREntry → IROperand → Nat → List IREntry × Nat
  label : List Char

/-- annotated expression nodes, with the `resultType` slot the type
checker fills in (the cases of `typeofExpression`, translate.c:294-355);
an identifier carries the `Access` its resolved symbol holds -/
inductive Exp where
  | seqExp (pre last : Exp) (resultType : Ty)
  | binOpExp (op : Nat) (lhs rhs : Exp) (resultType : Ty)
  | unOpDerefExp (target : Exp) (resultType : Ty)
  | unOpOtherExp (op : Nat) (target : Exp) (resultType : Ty)
  | compOpExp (op : Nat) (lhs rhs : Exp) (resultType : Ty)
  | landAssignExp (lhs rhs : Exp) (resultType : Ty)
  | lorAssignExp (lhs rhs : Exp) (resultType : Ty)
  | ternaryExp (condition thenExp elseExp : Exp) (resultType : Ty)
  | landExp (lhs rhs : Exp) (resultType : Ty)
  | lorExp (lhs rhs : Exp) (resultType : Ty)
  | structAccessExp (base : Exp) (field : List Char) (resultType : Ty)
  | structPtrAccessExp (base : Exp) (field : List Char) (resultType : Ty)
  | fnCallExp (args : List Exp) (resultType : Ty)
  | constExp (c : ConstVal) (resultType : Ty)
  | aggregateInitExp (elements : List Exp) (resultType : Ty)
  | castExp (target : Exp) (resultType : Ty)
  | sizeofTypeExp (targetType : Ty) (resultType : Ty)
  | sizeofExpExp (target : Exp) (resultType : Ty)
  | idExp (access : AccessM) (resultType : Ty)

/-- Embedding of `typeofExpression` (translate.c:294-355). -/
def typeofExpression : Exp → Ty
  | .seqExp _ _ t => t
  | .binOpExp _ _ _ t => t
  | .unOpDerefExp _ t => t
  | .unOpOtherExp _ _ t => t
  | .compOpExp _ _ _ t => t
  | .landAssignExp _ _ t => t
  | .lorAssignExp _ _ t => t
  | .ternaryExp _ _ _ t => t
  | .landExp _ _ t => t
  | .lorExp _ _ t => t
  | .structAccessExp _ _ t => t
  | .structPtrAccessExp _ _ t => t
  | .fnCallExp _ t => t
  | .constExp _ t => t
  | .aggregateInitExp _ t => t
  | .castExp _ t => t
  | .sizeofTypeExp _ t => t
  | .sizeofExpExp _ t => t
  | .idExp _ t => t

mutual
/-- Embedding of `constantIsZero` (translate.c:358-427); the source
aborts with an internal-compiler-error on non-constant nodes, embedded
as `false` (unreachable on type-checked trees). -/
def constantIsZero : Exp → Bool
  | .constExp c _ =>
    match c with
    | .ubyteVal v => v = 0
    | .byteVal v => v = 0
    | .charVal v => v = 0
    | .ushortVal v => v = 0
    | .shortVal v => v = 0
    | .uintVal v => v = 0
    | .intVal v => v = 0
    | .wcharVal v => v = 0
    | .ulongVal v => v = 0
    | .longVal v => v = 0
    | .floatBits v => v = 0
    | .doubleBits v => v = 0
    | .boolVal v => v = false
    | .stringVal _ => false
    | .wstringVal _ => false
    | .nullVal => true
  | .aggregateInitExp elements _ => constantListIsZero elements
  | _ => false

/-- the element loop of `constantIsZero` (translate.c:414-422) -/
def constantListIsZero : List Exp → Bool
  | [] => true
  | e :: rest => constantIsZero e && constantListIsZero rest
end

mutual
/-- Embedding of `constantToData` (translate.c:428-541): emit `CONST`
IR entries for a constant initializer into `out`; string and wide-string
constants append a fresh read-only fragment and emit a pointer-sized
reference to its label.  State: `(out, fragments, labelGen)`. -/
def constantToData : Exp → List IREntry → List Fragment → Nat →
    List IREntry × List Fragment × Nat
  | .constExp c _, out, fragments, lg =>
    match c with
    | .ubyteVal v => (out ++ [CONST BYTE_WIDTH (UBYTE v)], fragments, lg)
    | .byteVal v => (out ++ [CONST BYTE_WIDTH (BYTE v)], fragments, lg)
    | .charVal v => (out ++ [CONST CHAR_WIDTH (UBYTE v)], fragments, lg)
    | .ushortVal v => (out ++ [CONST SHORT_WIDTH (USHORT v)], fragments, lg)
    | .shortVal v => (out ++ [CONST SHORT_WIDTH (SHORT v)], fragments, lg)
    | .uintVal v => (out ++ [CONST INT_WIDTH (UINT v)], fragments, lg)
    | .intVal v => (out ++ [CONST INT_WIDTH (INT v)], fragments, lg)
    | .wcharVal v => (out ++ [CONST WCHAR_WIDTH (UINT v)], fragments, lg)
    | .ulongVal v => (out ++ [CONST LONG_WIDTH (ULONG v)], fragments, lg)
    | .longVal v => (out ++ [CONST LONG_WIDTH (LONG v)], fragments, lg)
    | .floatBits v => (out ++ [CONST FLOAT_WIDTH (FLOAT v)], fragments, lg)
    | .doubleBits v => (out ++ [CONST DOUBLE_WIDTH (DOUBLE v)], fragments, lg)
    | .boolVal v =>
      (out ++ [CONST BYTE_WIDTH (UBYTE (if v then 1 else 0))], fragments, lg)
    | .stringVal v =>
      let (label, lg1) := generateDataLabel lg
      let f := Fragment.rodata label CHAR_WIDTH [CONST 0 (.stringData v)]
      (out ++ [CONST POINTER_WIDTH (NAME label)], fragments ++ [f], lg1)
    | .wstringVal v =>
      let (label, lg1) := generateDataLabel lg
      let f := Fragment.rodata label CHAR_WIDTH [CONST 0 (.wstringData v)]
      (out ++ [CONST POINTER_WIDTH (NAME label)], fragments ++ [f], lg1)
    | .nullVal => (out ++ [CONST POINTER_WIDTH (ULONG 0)], fragments, lg)
  | .aggregateInitExp elements _, out, fragments, lg =>
    constantListToData elements out fragments lg
  | _, out, fragments, lg => (out, fragments, lg)

/-- the element loop of `constantToData` (translate.c:530-536) -/
def constantListToData : List Exp → List IREntry → List Fragment → Nat →
    List IREntry × List Fragment × Nat
  | [], out, fragments, lg => (out, fragments, lg)
  | e :: rest, out, fragments, lg =>
    let (out1, fragments1, lg1) := constantToData e out fragments lg
    constantListToData rest out1 fragments1 lg1
end

/-- Embedding of `translateJumpIfNot` (translate.c:568-574), exactly as
the source writes it: the body is `// TODO: write this` — no IR is
emitted for the condition. -/
def translateJumpIfNot (_condition : Exp) (out : List IREntry)
    (fragments : List Fragment) (lg ta : Nat) (_target : List Char) :
    List IREntry × List Fragment × Nat × Nat :=
  (out, fragments, lg, ta)

/-- Embedding of `translateJumpIf` (translate.c:575-580), exactly as the
source writes it: an empty `// TODO` stub. -/
def translateJumpIf (_condition : Exp) (out : List IREntry)
    (fragments : List Fragment) (lg ta : Nat) (_target : List Char) :
    List IREntry × List Fragment × Nat × Nat :=
  (out, fragments, lg, ta)

/-- Embedding of `translateCast` (translate.c:583-587), exactly as the
source writes it: `return from; // TODO: write this` — the operand is
returned unchanged and no conversion code is emitted. -/
def translateCast (fromOperand : IROperand) (_fromType _toType : Ty)
    (out : List IREntry) (ta : Nat) : IROperand × List IREntry × Nat :=
  (fromOperand, out, ta)

/-- Embedding of `translateExpression` (translate.c:588-933).  State is
`(out, fragments, labelGen, tempAlloc)`; the result operand is `none`
for the source's unimplemented `// TODO` cases, which emit nothing and
`return NULL`. -/
def translateExpression : Exp → List IREntry → List Fragment → Nat → Nat →
    List IREntry × List Fragment × Nat × Nat × Option IROperand
  | .seqExp pre last _, out, fragments, lg, ta =>
    let (out1, fragments1, lg1, ta1, _) := translateExpression pre out fragments lg ta
    translateExpression last out1 fragments1 lg1 ta1
  | .binOpExp _ _ _ _, out, fragments, lg, ta => (out, fragments, lg, ta, none)
  | .unOpDerefExp target resultType, out, fragments, lg, ta =>
    let resultSize := typeSizeof resultType
    let resultAlignment := typeAlignof resultType
    let kind := typeKindof resultType
    let (temp, ta1) := tempAllocatorAllocate ta
    let (out1, fragments1, lg1, ta2, addr) :=
      translateExpression target out fragments lg ta1
    (out1 ++ [MEM_LOAD resultSize (TEMP temp resultSize resultAlignment kind)
        (addr.getD (UBYTE 0))],
      fragments1, lg1, ta2, some (TEMP temp resultSize resultAlignment kind))
  | .unOpOtherExp _ _ _, out, fragments, lg, ta => (out, fragments, lg, ta, none)
  | .compOpExp _ _ _ _, out, fragments, lg, ta => (out, fragments, lg, ta, none)
  | .landAssignExp _ _ _, out, fragments, lg, ta => (out, fragments, lg, ta, none)
  | .lorAssignExp _ _ _, out, fragments, lg, ta => (out, fragments, lg, ta, none)
  | .ternaryExp condition thenExp elseExp resultType, out, fragments, lg, ta =>
    let (resultTemp, ta1) := tempAllocatorAllocate ta
    let resultSize := typeSizeof resultType
    let resultAlignment := typeAlignof resultType
    let kind := typeKindof resultType
    let (elseCase, lg1) := generateCodeLabel lg
    let (endLabel, lg2) := generateCodeLabel lg1
    let (out1, fragments1, lg3, ta2) :=
      translateJumpIfNot condition out fragments lg2 ta1 elseCase
    let (out2, fragments2, lg4, ta3, thenOperand) :=
      translateExpression thenExp out1 fragments1 lg3 ta2
    let (thenCast, out3, ta4) :=
      translateCast (thenOperand.getD (UBYTE 0)) (typeofExpression thenExp)
        resultType out2 ta3
    let out4 := out3 ++
      [MOVE resultSize (TEMP resultTemp resultSize resultAlignment kind) thenCast,
       JUMP endLabel, LABEL elseCase]
    let (out5, fragments3, lg5, ta5, elseOperand) :=
      translateExpression elseExp out4 fragments2 lg4 ta4
    let (elseCast, out6, ta6) :=
      translateCast (elseOperand.getD (UBYTE 0)) (typeofExpression elseExp)
        resultType out5 ta5
    (out6 ++
      [MOVE resultSize (TEMP resultTemp resultSize resultAlignment kind) elseCast,
       LABEL endLabel],
      fragments3, lg5, ta6, some (TEMP resultTemp resultSize resultAlignment kind))
  | .landExp _ _ _, out, fragments, lg, ta => (out, fragments, lg, ta, none)
  | .lorExp _ _ _, out, fragments, lg, ta => (out, fragments, lg, ta, none)
  | .structAccessExp _ _ _, out, fragments, lg, ta => (out, fragments, lg, ta, none)
  | .structPtrAccessExp _ _ _, out, fragments, lg, ta => (out, fragments, lg, ta, none)
  | .fnCallExp _ _, out, fragments, lg, ta => (out, fragments, lg, ta, none)
  | .constExp c _, out, fragments, lg, ta =>
    match c with
    | .ubyteVal v => (out, fragments, lg, ta, some (UBYTE v))
    | .byteVal v => (out, fragments, lg, ta, some (BYTE v))
    | .charVal v => (out, fragments, lg, ta, some (UBYTE v))
    | .ushortVal v => (out, fragments, lg, ta, some (USHORT v))
    | .shortVal v => (out, fragments, lg, ta, some (SHORT v))
    | .uintVal v => (out, fragments, lg, ta, some (UINT v))
    | .intVal v => (out, fragments, lg, ta, some (INT v))
    | .wcharVal v => (out, fragments, lg, ta, some (UINT v))
    | .ulongVal v => (out, fragments, lg, ta, some (ULONG v))
    | .longVal v => (out, fragments, lg, ta, some (LONG v))
    | .floatBits v => (out, fragments, lg, ta, some (FLOAT v))
    | .doubleBits v => (out, fragments, lg, ta, some (DOUBLE v))
    | .boolVal v => (out, fragments, lg, ta, some (UBYTE (if v then 1 else 0)))
    | .stringVal v =>
      let (label, lg1) := generateDataLabel lg
      let f := Fragment.rodata label CHAR_WIDTH [CONST 0 (.stringData v)]
      (out, fragments ++ [f], lg1, ta, some (NAME label))
    | .wstringVal v =>
      let (label, lg1) := generateDataLabel lg
      let f := Fragment.rodata label CHAR_WIDTH [CONST 0 (.wstringData v)]
      (out, fragments ++ [f], lg1, ta, some (NAME label))
    | .nullVal => (out, fragments, lg, ta, some (ULONG 0))
  | .aggregateInitExp _ _, out, fragments, lg, ta => (out, fragments, lg, ta, none)
  | .castExp target resultType, out, fragments, lg, ta =>
    let (out1, fragments1, lg1, ta1, operand) :=
      translateExpression target out fragments lg ta
    let (cast, out2, ta2) :=
      translateCast (operand.getD (UBYTE 0)) (typeofExpression target)
        resultType out1 ta1
    (out2, fragments1, lg1, ta2, some cast)
  | .sizeofTypeExp targetType _, out, fragments, lg, ta =>
    (out, fragments, lg, ta, some (ULONG (typeSizeof targetType)))
  | .sizeofExpExp target _, out, fragments, lg, ta =>
    let (out1, fragments1, lg1, ta1, _) :=
      translateExpression target out fragments lg ta
    (out1, fragments1, lg1, ta1, some (ULONG (typeSizeof (typeofExpression target))))
  | .idExp access _, out, fragments, lg, ta =>
    let (out1, ta1, operand) := access.load out ta
    (out1, fragments, lg, ta1, some operand)

/-- a local variable's symbol info as the translator reads it
(`SymbolInfo.data.var`: type and escape flag) -/
structure VarInfo where
  type : Ty
  escapes : Bool

/-- statement nodes as the translator walks them (translate.c:936-1156);
a `for` initializer is either a declaration statement or an expression
(the source tests `initialize->type == NT_VARDECL`), and a declaration
statement carries `(symbol info, optional initializer)` pairs -/
inductive Stmt where
  | compoundStmt (statements : List Stmt)
  | ifStmt (condition : Exp) (thenStmt : Stmt) (elseStmt : Option Stmt)
  | whileStmt (condition : Exp) (body : Stmt)
  | doWhileStmt (body : Stmt) (condition : Exp)
  | forStmt (forInit : Option (Stmt ⊕ Exp)) (condition : Exp)
      (update : Exp) (body : Stmt)
  | switchStmt (condition : Exp) (cases : List Stmt)
  | breakStmt
  | continueStmt
  | returnStmt (value : Option Exp)
  | asmStmt (assembly : List Char)
  | expressionStmt (expression : Exp)
  | nullStmt
  | typeDeclStmt
  | varDeclStmt (idValuePairs : List (VarInfo × Option Exp))

/-- the frame collaborator (spec §4.5; `ir/frame.h` is interface only):
allocation requests receive the temp allocator; `scopeEnd` wraps a
compound's IR; `scopeStart` only changes the frame's internal state and
is therefore invisible to this embedding -/
structure FrameOps where
  allocArg : Ty → Bool → Nat → AccessM × Nat
  allocRetVal : Ty → Nat → AccessM × Nat
  allocLocal : Ty → Bool → Nat → AccessM × Nat
  scopeEnd : List IREntry → Nat → List IREntry × Nat

/-- stands for the C `NULL` access; it is dereferenced only on trees
that would be internal-compiler-errors -/
def nullAccess : AccessM :=
  ⟨fun out ta => (out, ta, UBYTE 0), fun out _ ta => (out, ta), []⟩

/-- the per-pair body of the `NT_VARDECL` case (translate.c:1128-1148):
allocate a local slot, then evaluate, cast and store any initializer -/
def translateVarDeclPairs : List (VarInfo × Option Exp) → List IREntry →
    List Fragment → FrameOps → Nat → Nat → List IREntry × List Fragment × Nat × Nat
  | [], out, fragments, _, lg, ta => (out, fragments, lg, ta)
  | (info, initializer) :: rest, out, fragments, frame, lg, ta =>
    let (access, ta1) := frame.allocLocal info.type info.escapes ta
    match initializer with
    | none => translateVarDeclPairs rest out fragments frame lg ta1
    | some ini =>
      let (out1, fragments1, lg1, ta2, operand) :=
        translateExpression ini out fragments lg ta1
      let (cast, out2, ta3) :=
        translateCast (operand.getD (UBYTE 0)) (typeofExpression ini)
          info.type out1 ta2
      let (out3, ta4) := access.store out2 cast ta3
      translateVarDeclPairs rest out3 fragments1 frame lg1 ta4

mutual
/-- Embedding of `translateStmt` (translate.c:936-1156).  State:
`(out, fragments, labelGen, tempAlloc)`; `breakLabel` and
`continueLabel` are the C `char const *` arguments (NULL outside
loops and switches). -/
def translateStmt : Stmt → List IREntry → List Fragment → FrameOps →
    Option AccessM → Option (List Char) → Option (List Char) → List Char →
    Nat → Nat → Ty → List IREntry × List Fragment × Nat × Nat
  | .compoundStmt stmts, out, fragments, frame, outArg, breakLabel,
      continueLabel, exitLabel, lg, ta, returnType =>
    let (body, fragments1, lg1, ta1) :=
      translateStmtList stmts [] fragments frame outArg breakLabel continueLabel
        exitLabel lg ta returnType
    let (wrapped, ta2) := frame.scopeEnd body ta1
    (out ++ wrapped, fragments1, lg1, ta2)
  | .ifStmt condition thenStmt elseStmt, out, fragments, frame, outArg,
      breakLabel, continueLabel, exitLabel, lg, ta, returnType =>
    match elseStmt with
    | none =>
      let (skip, lg1) := generateCodeLabel lg
      let (out1, fragments1, lg2, ta1) :=
        translateJumpIfNot condition out fragments lg1 ta skip
      let (out2, fragments2, lg3, ta2) :=
        translateStmt thenStmt out1 fragments1 frame outArg breakLabel
          continueLabel exitLabel lg2 ta1 returnType
      (out2 ++ [LABEL skip], fragments2, lg3, ta2)
    | some elseBody =>
      let (elseCase, lg1) := generateCodeLabel lg
      let (endLabel, lg2) := generateCodeLabel lg1
      let (out1, fragments1, lg3, ta1) :=
        translateJumpIfNot condition out fragments lg2 ta elseCase
      let (out2, fragments2, lg4, ta2) :=
        translateStmt thenStmt out1 fragments1 frame outArg breakLabel
          continueLabel exitLabel lg3 ta1 returnType
      let out3 := out2 ++ [JUMP endLabel, LABEL elseCase]
      let (out4, fragments3, lg5, ta3) :=
        translateStmt elseBody out3 fragments2 frame outArg breakLabel
          continueLabel exitLabel lg4 ta2 returnType
      (out4 ++ [LABEL endLabel], fragments3, lg5, ta3)
  | .whileStmt condition body, out, fragments, frame, outArg, _, _,
      exitLabel, lg, ta, returnType =>
    let (start, lg1) := generateCodeLabel lg
    let (endLabel, lg2) := generateCodeLabel lg1
    let out1 := out ++ [LABEL start]
    let (out2, fragments1, lg3, ta1) :=
      translateJumpIfNot condition out1 fragments lg2 ta endLabel
    let (out3, fragments2, lg4, ta2) :=
      translateStmt body out2 fragments1 frame outArg (some endLabel)
        (some start) exitLabel lg3 ta1 returnType
    (out3 ++ [JUMP start, LABEL endLabel], fragments2, lg4, ta2)
  | .doWhileStmt body condition, out, fragments, frame, outArg, _, _,
      exitLabel, lg, ta, returnType =>
    let (start, lg1) := generateCodeLabel lg
    let (loopContinue, lg2) := generateCodeLabel lg1
    let (endLabel, lg3) := generateCodeLabel lg2
    let out1 := out ++ [LABEL start]
    let (out2, fragments1, lg4, ta1) :=
      translateStmt body out1 fragments frame outArg (some endLabel)
        (some loopContinue) exitLabel lg3 ta returnType
    let out3 := out2 ++ [LABEL loopContinue]
    let (out4, fragments2, lg5, ta2) :=
      translateJumpIf condition out3 fragments1 lg4 ta1 start
    (out4 ++ [LABEL endLabel], fragments2, lg5, ta2)
  | .forStmt forInit condition update body, out, fragments, frame, outArg,
      _, _, exitLabel, lg, ta, returnType =>
    let (start, lg1) := generateCodeLabel lg
    let (endLabel, lg2) := generateCodeLabel lg1
    let (body1, fragments1, lg3, ta1) :=
      match forInit with
      | none => (([] : List IREntry), fragments, lg2, ta)
      | some (.inl declStmt) =>
        translateStmt declStmt [] fragments frame outArg none none exitLabel
          lg2 ta returnType
      | some (.inr e) =>
        let (o, f, l, t, _) := translateExpression e [] fragments lg2 ta
        (o, f, l, t)
    let body2 := body1 ++ [LABEL start]
    let (body3, fragments2, lg4, ta2) :=
      translateJumpIfNot condition body2 fragments1 lg3 ta1 endLabel
    let (body4, fragments3, lg5, ta3) :=
      translateStmt body body3 fragments2 frame outArg (some endLabel)
        (some start) exitLabel lg4 ta2 returnType
    let (body5, fragments4, lg6, ta4, _) :=
      translateExpression update body4 fragments3 lg5 ta3
    let body6 := body5 ++ [JUMP start, LABEL endLabel]
    let (wrapped, ta5) := frame.scopeEnd body6 ta4
    (out ++ wrapped, fragments4, lg6, ta5)
  | .switchStmt _ _, out, fragments, _, _, _, _, _, lg, ta, _ =>
    (out, fragments, lg, ta)
  | .breakStmt, out, fragments, _, _, breakLabel, _, _, lg, ta, _ =>
    (out ++ [JUMP (breakLabel.getD [])], fragments, lg, ta)
  | .continueStmt, out, fragments, _, _, _, continueLabel, _, lg, ta, _ =>
    (out ++ [JUMP (continueLabel.getD [])], fragments, lg, ta)
  | .returnStmt value, out, fragments, _, outArg, _, _, exitLabel, lg, ta,
      returnType =>
    match value with
    | some v =>
      let (out1, fragments1, lg1, ta1, operand) :=
        translateExpression v out fragments lg ta
      let (cast, out2, ta2) :=
        translateCast (operand.getD (UBYTE 0)) (typeofExpression v)
          returnType out1 ta1
      let (out3, ta3) := (outArg.getD nullAccess).store out2 cast ta2
      (out3 ++ [JUMP exitLabel], fragments1, lg1, ta3)
    | none => (out ++ [JUMP exitLabel], fragments, lg, ta)
  | .asmStmt assembly, out, fragments, _, _, _, _, _, lg, ta, _ =>
    (out ++ [ASM assembly], fragments, lg, ta)
  | .expressionStmt expression, out, fragments, _, _, _, _, _, lg, ta, _ =>
    let (out1, fragments1, lg1, ta1, _) :=
      translateExpression expression out fragments lg ta
    (out1, fragments1, lg1, ta1)
  | .nullStmt, out, fragments, _, _, _, _, _, lg, ta, _ =>
    (out, fragments, lg, ta)
  | .typeDeclStmt, out, fragments, _, _, _, _, _, lg, ta, _ =>
    (out, fragments, lg, ta)
  | .varDeclStmt idValuePairs, out, fragments, frame, _, _, _, _, lg, ta, _ =>
    translateVarDeclPairs idValuePairs out fragments frame lg ta

/-- the statement fold of the compound case (translate.c:951-957) -/
def translateStmtList : List Stmt → List IREntry → List Fragment → FrameOps →
    Option AccessM → Option (List Char) → Option (List Char) → List Char →
    Nat → Nat → Ty → List IREntry × List Fragment × Nat × Nat
  | [], out, fragments, _, _, _, _, _, lg, ta, _ => (out, fragments, lg, ta)
  | st :: rest, out, fragments, frame, outArg, breakLabel, continueLabel,
      exitLabel, lg, ta, returnType =>
    let (out1, fragments1, lg1, ta1) :=
      translateStmt st out fragments frame outArg breakLabel continueLabel
        exitLabel lg ta returnType
    translateStmtList rest out1 fragments1 frame outArg breakLabel
      continueLabel exitLabel lg1 ta1 returnType
end

/-- Embedding of the per-pair loop of `translateGlobalVar`
(translate.c:1159-1187).  Each pair is `(name, type, initializer)`; the
fragment label is the access's `getLabel`, which `addGlobalAccesses`
(translate.c:544-565) created as `mangleVarName(moduleName, name)`
(the global-access collaborator of spec §4.5 returns the label it was
constructed with). -/
def translateGlobalVarLoop : List (List Char × Ty × Option Exp) →
    List (List Char) → List Fragment → Nat → List Fragment × Nat
  | [], _, fragments, lg => (fragments, lg)
  | (name, type, initializer) :: rest, moduleName, fragments, lg =>
    let mangledName := mangleVarName moduleName name
    match initializer with
    | none =>
      translateGlobalVarLoop rest moduleName
        (fragments ++ [Fragment.bss mangledName (typeSizeof type) (typeAlignof type)]) lg
    | some ini =>
      if constantIsZero ini then
        translateGlobalVarLoop rest moduleName
          (fragments ++ [Fragment.bss mangledName (typeSizeof type) (typeAlignof type)]) lg
      else
        match type with
        | .const _ =>
          let (ir, fragments1, lg1) := constantToData ini [] fragments lg
          translateGlobalVarLoop rest moduleName
            (fragments1 ++ [Fragment.rodata mangledName (typeAlignof type) ir]) lg1
        | _ =>
          let (ir, fragments1, lg1) := constantToData ini [] fragments lg
          translateGlobalVarLoop rest moduleName
            (fragments1 ++ [Fragment.data mangledName (typeAlignof type) ir]) lg1

/-- Embedding of `translateGlobalVar` (translate.c:1159-1187). -/
def translateGlobalVar (idValuePairs : List (List Char × Ty × Option Exp))
    (moduleName : List (List Char)) (fragments : List Fragment) (lg : Nat) :
    List Fragment × Nat :=
  translateGlobalVarLoop idValuePairs moduleName fragments lg

/-- the per-formal `allocArg` fold of `translateFunction`
(translate.c:1205-1210) -/
def allocFormals : List (Ty × Bool) → FrameOps → Nat → Nat
  | [], _, ta => ta
  | (t, escapes) :: rest, frame, ta =>
    allocFormals rest frame (frame.allocArg t escapes ta).2

/-- Embedding of `translateFunction` (translate.c:1188-1233): allocate
argument accesses, allocate the return-value access unless the return
type is `void`, generate the exit label, lower the body statements, emit
the exit label once, and append the text fragment.  The function's
mangled name is its access's `getLabel` (created by `addGlobalAccesses`
via `mangleFunctionName`); the temp allocator starts fresh per function. -/
def translateFunction (mangledName : List Char) (returnType : Ty)
    (formals : List (Ty × Bool)) (bodyStmts : List Stmt)
    (fragments : List Fragment) (frame : FrameOps) (lg : Nat) :
    List Fragment × Nat :=
  let ta0 : Nat := 0
  let ta1 := allocFormals formals frame ta0
  let (outArg, ta2) :=
    match returnType with
    | .void => ((none : Option AccessM), ta1)
    | _ =>
      let (a, ta') := frame.allocRetVal returnType ta1
      (some a, ta')
  let (exitLabel, lg1) := generateCodeLabel lg
  let (ir, fragments1, lg2, _) :=
    translateStmtList bodyStmts [] fragments frame outArg none none exitLabel
      lg1 ta2 returnType
  (fragments1 ++ [Fragment.text mangledName (ir ++ [LABEL exitLabel])], lg2)

/-- a top-level body as the translator sees it (translate.c:1234-1248):
a global variable declaration, a function definition, or a body with no
generated code -/
inductive TBody where
  | varDecl (idValuePairs : List (List Char × Ty × Option Exp))
  | function (mangledName : List Char) (returnType : Ty)
      (formals : List (Ty × Bool)) (body : List Stmt)
  | other

/-- Embedding of `translateBody` (translate.c:1234-1248). -/
def translateBody (b : TBody) (moduleName : List (List Char))
    (fragments : List Fragment) (frame : FrameOps) (lg : Nat) :
    List Fragment × Nat :=
  match b with
  | .varDecl idValuePairs => translateGlobalVar idValuePairs moduleName fragments lg
  | .function mangledName returnType formals body =>
    translateFunction mangledName returnType formals body fragments frame lg
  | .other => (fragments, lg)

/-- a code file as the translator sees it -/
structure TFile where
  filename : List Char
  moduleName : List (List Char)
  bodies : List TBody

/-- the body fold of `translateFile` (translate.c:1249-1260) -/
def translateFileBodies : List TBody → List (List Char) → List Fragment →
    FrameOps → Nat → List Fragment × Nat
  | [], _, fragments, _, lg => (fragments, lg)
  | b :: rest, moduleName, fragments, frame, lg =>
    let (fragments1, lg1) := translateBody b moduleName fragments frame lg
    translateFileBodies rest moduleName fragments1 frame lg1

/-- Embedding of `translateFile` (translate.c:1249-1260); the label
generator is constructed fresh per file (translate.c:1290). -/
def translateFile (file : TFile) (frame : FrameOps) : List Fragment :=
  (translateFileBodies file.bodies file.moduleName [] frame 0).1

/-- Embedding of the code-file loop of `translate` (translate.c:1285-1292):
the output map, keyed by `codeFilenameToAssembyFilename` of each code
file's name; the map is embedded as an association list in iteration
order.  (The Lean name differs from the C `translate` because Mathlib
already declares `translate`.) -/
def translateCodes (codes : List TFile) (frame : FrameOps) :
    List (List Char × List Fragment) :=
  codes.map fun f => (codeFilenameToAssembyFilename f.filename, translateFile f frame)

inductive FragKind where
  | bssK | rodataK | dataK | textK
deriving Repr, DecidableEq

def Fragment.kindOf : Fragment → FragKind
  | .bss _ _ _ => .bssK
  | .rodata _ _ _ => .rodataK
  | .data _ _ _ => .dataK
  | .text _ _ => .textK

/-- the fragment-kind rule exactly as claim C4 words it: absent or
all-zero initializer gives BSS; otherwise a const-qualified type gives
read-only data; otherwise initialized data -/
def globalVarFragmentKindSpec (type : Ty) (initializer : Option Exp) : FragKind :=
  match initializer with
  | none => .bssK
  | some ini =>
    if constantIsZero ini then .bssK
    else
      match type with
      | .const _ => .rodataK
      | _ => .dataK

/-- C4: for every global variable declaration, the fragment emitted by
`translateGlobalVar` is of the kind the claim's rule determines (BSS for
an absent or all-zero constant initializer, read-only data for a
const-qualified type, initialized data otherwise), its label is the
variable's mangled name, the BSS fragment carries `typeSizeof` and
`typeAlignof` of the declared type, and `module a; int x;` yields a BSS
fragment `__Z1a1x` of size 4 and alignment 4. -/
theorem C4_translateGlobalVar_fragments :
    (∀ (m : List (List Char)) (n : List Char) (t : Ty) (i : Option Exp)
        (fr : List Fragment) (lg : Nat),
      ((translateGlobalVar [(n, t, i)] m fr lg).1.getLast?).map
          (fun f => (Fragment.kindOf f, Fragment.label f))
        = some (globalVarFragmentKindSpec t i, mangleVarName m n)) ∧
    (∀ (m : List (List Char)) (n : List Char) (t : Ty) (i : Option Exp)
        (fr : List Fragment) (lg : Nat),
      (i = none ∨ ∃ e, i = some e ∧ constantIsZero e = true) →
      translateGlobalVar [(n, t, i)] m fr lg
        = (fr ++ [Fragment.bss (mangleVarName m n) (typeSizeof t) (typeAlignof t)], lg)) ∧
    translateGlobalVar [(['x'], .int, none)] [['a']] [] 0
      = ([Fragment.bss "__Z1a1x".data 4 4], 0) := by
  refine ⟨?_, ?_, by decide⟩
  · intro m n t i fr lg
    cases i with
    | none =>
      simp [translateGlobalVar, translateGlobalVarLoop, globalVarFragmentKindSpec,
        List.getLast?_concat, Fragment.kindOf, Fragment.label]
    | some e =>
      cases hz : constantIsZero e with
      | true =>
        simp [translateGlobalVar, translateGlobalVarLoop, globalVarFragmentKindSpec,
          hz, List.getLast?_concat, Fragment.kindOf, Fragment.label]
      | false =>
        rcases h : constantToData e [] fr lg with ⟨ir, fragments1, lg1⟩
        cases t <;>
          simp [translateGlobalVar, translateGlobalVarLoop, globalVarFragmentKindSpec,
            hz, h, List.getLast?_concat, Fragment.kindOf, Fragment.label]
  · intro m n t i fr lg h
    rcases h with rfl | ⟨e, rfl, hz⟩
    · rfl
    · simp [translateGlobalVar, translateGlobalVarLoop, hz]

/-- witness for `C4_translateGlobalVar_fragments` at a concrete input -/
theorem C4_translateGlobalVar_fragments_witness :
    translateGlobalVar [(['y'], .long, none)] [['m']] [] 7
      = ([Fragment.bss "__Z1m1y".data 8 8], 7) := by
  have h := C4_translateGlobalVar_fragments.2.1 [['m']] ['y'] .long none [] 7 (Or.inl rfl)
  simpa using h

/-- a concrete frame and access instantiation for evaluating the
translator: argument and local slots are inert, the return-value access
stores through `MOVE` into register 0, and scopes wrap nothing -/
def evalFrame : FrameOps :=
  ⟨fun _ _ ta => (nullAccess, ta),
   fun t ta =>
     (⟨fun out ta' => (out, ta', UBYTE 0),
       fun out v ta' => (out ++ [MOVE (typeSizeof t) (.reg 0) v], ta'), []⟩, ta),
   fun _ _ ta => (nullAccess, ta),
   fun body ta => (body, ta)⟩

def isCondJump : IROperator → Bool
  | .IO_JL | .IO_JLE | .IO_JE | .IO_JNE | .IO_JGE | .IO_JG => true
  | _ => false

/-- C5: evaluating the source's while lowering shows the emitted IR is
top label, body, unconditional jump to top, end label — with no
conditional jump on the condition anywhere, because `translateJumpIfNot`
is an empty TODO stub; break lowers to a jump to the end label and
continue to a jump to the top label. -/
theorem C5_while_lowering_no_conditional_jump :
    (translateStmt (.whileStmt (.constExp (.boolVal true) .bool) .breakStmt)
        [] [] evalFrame none none none ['X'] 0 0 .void).1
      = [LABEL "L_code_0".data, JUMP "L_code_1".data, JUMP "L_code_0".data,
         LABEL "L_code_1".data] ∧
    (translateStmt (.whileStmt (.constExp (.boolVal true) .bool) .continueStmt)
        [] [] evalFrame none none none ['X'] 0 0 .void).1
      = [LABEL "L_code_0".data, JUMP "L_code_0".data, JUMP "L_code_0".data,
         LABEL "L_code_1".data] ∧
    ((translateStmt (.whileStmt (.constExp (.boolVal true) .bool) .breakStmt)
        [] [] evalFrame none none none ['X'] 0 0 .void).1.all
      fun e => !isCondJump e.op) = true := by
  refine ⟨by decide, by decide, by decide⟩

/-- C6: evaluating the source's return lowering on `return (byte) 5` in
a function returning `int` shows the byte-valued operand is stored
through the return-value access unchanged — `translateCast` is a TODO
stub that emits nothing and returns its operand — followed by the jump
to the function's exit label, which is emitted exactly once. -/
theorem C6_return_stores_uncast_value :
    translateFunction "__Z1a1fsi".data .int [(.int, false)]
        [.returnStmt (some (.constExp (.byteVal 5) .byte))] [] evalFrame 0
      = ([Fragment.text "__Z1a1fsi".data
            [MOVE 4 (.reg 0) (.constant 5), JUMP "L_code_0".data,
             LABEL "L_code_0".data]], 1) ∧
    translateCast (.constant 5) .byte .int [] 0 = (.constant 5, [], 0) ∧
    ((Fragment.text "__Z1a1fsi".data
        [MOVE 4 (.reg 0) (.constant 5), JUMP "L_code_0".data,
         LABEL "L_code_0".data]).kindOf = .textK ∧
      ([MOVE 4 (.reg 0) (.constant 5), JUMP "L_code_0".data,
        LABEL "L_code_0".data].filter fun e => e.op = .IO_LABEL).length = 1) := by
  refine ⟨by decide, rfl, by decide, by decide⟩

theorem take_append_plus {α : Type} :
    ∀ (l1 l2 : List α) (n : Nat), (l1 ++ l2).take (l1.length + n) = l1 ++ l2.take n := by
  intro l1
  induction l1 with
  | nil => intro l2 n; simp
  | cons a rest ih =>
    intro l2 n
    have harith : rest.length + 1 + n = (rest.length + n) + 1 := by omega
    simp only [List.cons_append, List.length_cons, harith, List.take_succ_cons, ih]

/-- C9 (counterexample): for the input filename `a.src` the computed
assembly filename is `a.ss`, not `a.s`: the transform overwrites the
last two characters with `'s'` and NUL, which only strips a
two-character extension. -/
theorem C9_assembly_filename_counterexample :
    codeFilenameToAssembyFilename "a.src".data = "a.ss".data ∧
    "a.ss".data ≠ "a.s".data := by
  exact ⟨by decide, by decide⟩

/-- C9 (amended): `translate` keys each code file's fragment vector
under the file name with its final two characters replaced by `s`: an
input `X.src` is keyed `X.ss` (a two-character extension such as `X.tc`
yields `X.s`). -/
theorem C9_assembly_filename :
    (∀ stem : List Char,
      codeFilenameToAssembyFilename (stem ++ ".src".data) = stem ++ ".ss".data) ∧
    (∀ stem : List Char,
      codeFilenameToAssembyFilename (stem ++ ".tc".data) = stem ++ ".s".data) ∧
    (∀ (codes : List TFile) (frame : FrameOps),
      (translateCodes codes frame).map Prod.fst
        = codes.map fun f => codeFilenameToAssembyFilename f.filename) := by
  refine ⟨?_, ?_, ?_⟩
  · intro stem
    have hlen : (stem ++ ".src".data).length - 2 = stem.length + 2 := by
      simp
    rw [codeFilenameToAssembyFilename, hlen, take_append_plus]
    simp
  · intro stem
    have hlen : (stem ++ ".tc".data).length - 2 = stem.length + 1 := by
      simp
    rw [codeFilenameToAssembyFilename, hlen, take_append_plus]
    simp
  · intro codes frame
    simp [translateCodes]

/-! ## Identifier resolution (`src/src/main/typecheck/symbolTable.c`)

`environmentIsType` reads only the `kind` of a `SymbolInfo`, so the
embedding carries the kind; symbol tables and the import map are hash
maps, embedded as association lists in iteration order (the C loops
skip empty buckets); the scope stack is iterated from its top, the
innermost scope, outward (symbolTable.c:210), so the innermost scope is
the head of the embedded list. -/

inductive SymbolKind where
  | SK_VAR | SK_TYPE | SK_FUNCTION
deriving Repr, DecidableEq

structure SymbolInfo where
  kind : SymbolKind
deriving Repr, DecidableEq

inductive TernaryValue where
  | YES | NO | INDETERMINATE
deriving Repr, DecidableEq

/-- what `reportError` / `reportMessage` print (symbolTable.c:206-246):
an undefined-identifier error, an ambiguous-identifier error, or a
candidate-module note -/
inductive ReportEntry where
  | errorUndefinedId (line character : Nat) (id : List Char)
  | errorAmbiguousId (line character : Nat) (id : List Char)
  | candidateModule (moduleName : List Char)
deriving Repr, DecidableEq

/-- Embedding of `symbolTableGet` on the association-list model. -/
def symbolTableGet : List (List Char × SymbolInfo) → List Char → Option SymbolInfo
  | [], _ => none
  | (k, v) :: rest, key => if k = key then some v else symbolTableGet rest key

structure Environment where
  currentModule : List (List Char × SymbolInfo)
  currentModuleName : List Char
  imports : List (List Char × List (List Char × SymbolInfo))
  scopes : List (List (List Char × SymbolInfo))

/-- the scope loop of `environmentIsType` (symbolTable.c:210-214),
innermost scope first -/
def scopesLookup : List (List (List Char × SymbolInfo)) → List Char → Option SymbolInfo
  | [], _ => none
  | scope :: rest, nm =>
    match symbolTableGet scope nm with
    | some info => some info
    | none => scopesLookup rest nm

def kindTernary (info : SymbolInfo) : TernaryValue :=
  if info.kind = .SK_TYPE then .YES else .NO

/-- the import loop of `environmentIsType` (symbolTable.c:218-247):
`found` holds the first hit's info and module; a second hit reports the
ambiguity, names the two candidate modules, and answers INDETERMINATE -/
def importsLookupLoop :
    List (List Char × List (List Char × SymbolInfo)) → List Char →
    Option (SymbolInfo × List Char) → Nat → Nat → List ReportEntry →
    TernaryValue × List ReportEntry
  | [], nm, found, line, character, report =>
    match found with
    | some (info, _) => (kindTernary info, report)
    | none => (.INDETERMINATE, report ++ [.errorUndefinedId line character nm])
  | (modName, table) :: rest, nm, found, line, character, report =>
    match symbolTableGet table nm with
    | none => importsLookupLoop rest nm found line character report
    | some current =>
      match found with
      | none => importsLookupLoop rest nm (some (current, modName)) line character report
      | some (_, foundModule) =>
        (.INDETERMINATE,
          report ++ [.errorAmbiguousId line character nm,
            .candidateModule modName, .candidateModule foundModule])

/-- Embedding of the unqualified branch of `environmentIsType`
(symbolTable.c:209-248), the `else` of `isScoped`: the scoped branch
depends on `splitName`, whose definition is not under `src/`, and the
claim quantifies over unqualified names, which take this branch.  The
token supplies the looked-up name and the error position. -/
def environmentIsTypeUnqualified (env : Environment) (report : List ReportEntry)
    (line character : Nat) (nm : List Char) : TernaryValue × List ReportEntry :=
  match scopesLookup env.scopes nm with
  | some info => (kindTernary info, report)
  | none =>
    match symbolTableGet env.currentModule nm with
    | some info => (kindTernary info, report)
    | none => importsLookupLoop env.imports nm none line character report

/-- the imported tables that contain `nm`, with the info found, in the
order the imports are iterated -/
def importsContaining (imports : List (List Char × List (List Char × SymbolInfo)))
    (nm : List Char) : List (List Char × SymbolInfo) :=
  imports.filterMap fun p => (symbolTableGet p.2 nm).map fun i => (p.1, i)

/-- resolution exactly as claim C7 words it: the lexical scopes
innermost-first, then the current module, then the imported tables,
INDETERMINATE when no import or more than one import provides the name -/
def resolveSpec (env : Environment) (nm : List Char) : TernaryValue :=
  match scopesLookup env.scopes nm with
  | some info => kindTernary info
  | none =>
    match symbolTableGet env.currentModule nm with
    | some info => kindTernary info
    | none =>
      match importsContaining env.imports nm with
      | [] => .INDETERMINATE
      | [(_, info)] => kindTernary info
      | _ :: _ :: _ => .INDETERMINATE

theorem importsContaining_cons_none
    (modName : List Char) (table : List (List Char × SymbolInfo))
    (rest : List (List Char × List (List Char × SymbolInfo))) (nm : List Char)
    (hget : symbolTableGet table nm = none) :
    importsContaining ((modName, table) :: rest) nm = importsContaining rest nm := by
  simp [importsContaining, hget]

theorem importsContaining_cons_some
    (modName : List Char) (table : List (List Char × SymbolInfo))
    (rest : List (List Char × List (List Char × SymbolInfo))) (nm : List Char)
    (current : SymbolInfo) (hget : symbolTableGet table nm = some current) :
    importsContaining ((modName, table) :: rest) nm
      = (modName, current) :: importsContaining rest nm := by
  simp [importsContaining, hget]

theorem importsLookupLoop_found :
    ∀ (imports : List (List Char × List (List Char × SymbolInfo))) (nm : List Char)
      (info1 : SymbolInfo) (m1 : List Char) (line character : Nat)
      (report : List ReportEntry),
      importsLookupLoop imports nm (some (info1, m1)) line character report
        = match importsContaining imports nm with
          | [] => (kindTernary info1, report)
          | (m2, _) :: _ =>
            (.INDETERMINATE,
              report ++ [.errorAmbiguousId line character nm,
                .candidateModule m2, .candidateModule m1]) := by
  intro imports
  induction imports with
  | nil => intro nm info1 m1 line character report; rfl
  | cons p rest ih =>
    intro nm info1 m1 line character report
    rcases p with ⟨modName, table⟩
    cases hget : symbolTableGet table nm with
    | none =>
      rw [importsContaining_cons_none modName table rest nm hget]
      simp only [importsLookupLoop, hget]
      exact ih nm info1 m1 line character report
    | some current =>
      rw [importsContaining_cons_some modName table rest nm current hget]
      simp only [importsLookupLoop, hget]

theorem importsLookupLoop_none :
    ∀ (imports : List (List Char × List (List Char × SymbolInfo))) (nm : List Char)
      (line character : Nat) (report : List ReportEntry),
      importsLookupLoop imports nm none line character report
        = match importsContaining imports nm with
          | [] => (.INDETERMINATE, report ++ [.errorUndefinedId line character nm])
          | [(_, info)] => (kindTernary info, report)
          | (m1, info1) :: (m2, _) :: _ =>
            (.INDETERMINATE,
              report ++ [.errorAmbiguousId line character nm,
                .candidateModule m2, .candidateModule m1]) := by
  intro imports
  induction imports with
  | nil => intro nm line character report; rfl
  | cons p rest ih =>
    intro nm line character report
    rcases p with ⟨modName, table⟩
    cases hget : symbolTableGet table nm with
    | none =>
      rw [importsContaining_cons_none modName table rest nm hget]
      simp only [importsLookupLoop, hget]
      exact ih nm line character report
    | some current =>
      rw [importsContaining_cons_some modName table rest nm current hget]
      simp only [importsLookupLoop, hget,
        importsLookupLoop_found rest nm current modName line character report]
      rcases importsContaining rest nm with _ | ⟨⟨m2, i2⟩, tail⟩ <;> simp

/-- C7: unqualified resolution searches the lexical scopes
innermost-first, then the current module, then the imported tables; a
hit in a scope or the current module answers immediately with no
report; and a name absent there but present in two or more imported
tables reports an ambiguity error naming the two candidate modules and
answers INDETERMINATE. -/
theorem C7_environmentIsType_resolution :
    (∀ (env : Environment) (report : List ReportEntry) (line character : Nat)
        (nm : List Char),
      (environmentIsTypeUnqualified env report line character nm).1
        = resolveSpec env nm) ∧
    (∀ (env : Environment) (report : List ReportEntry) (line character : Nat)
        (nm : List Char),
      (scopesLookup env.scopes nm).isSome = true ∨
        (symbolTableGet env.currentModule nm).isSome = true →
      (environmentIsTypeUnqualified env report line character nm).2 = report) ∧
    (∀ (env : Environment) (report : List ReportEntry) (line character : Nat)
        (nm m1 : List Char) (info1 : SymbolInfo) (m2 : List Char)
        (info2 : SymbolInfo) (rest : List (List Char × SymbolInfo)),
      scopesLookup env.scopes nm = none →
      symbolTableGet env.currentModule nm = none →
      importsContaining env.imports nm = (m1, info1) :: (m2, info2) :: rest →
      environmentIsTypeUnqualified env report line character nm
        = (.INDETERMINATE,
            report ++ [.errorAmbiguousId line character nm,
              .candidateModule m2, .candidateModule m1])) := by
  refine ⟨?_, ?_, ?_⟩
  · intro env report line character nm
    cases hs : scopesLookup env.scopes nm with
    | some info => simp [environmentIsTypeUnqualified, resolveSpec, hs]
    | none =>
      cases hm : symbolTableGet env.currentModule nm with
      | some info => simp [environmentIsTypeUnqualified, resolveSpec, hs, hm]
      | none =>
        simp only [environmentIsTypeUnqualified, resolveSpec, hs, hm]
        rw [importsLookupLoop_none]
        rcases importsContaining env.imports nm with _ | ⟨⟨ma, ia⟩, _ | ⟨⟨mb, ib⟩, tail⟩⟩ <;>
          simp
  · intro env report line character nm h
    rcases h with h | h
    · rcases hs : scopesLookup env.scopes nm with - | info
      · rw [hs] at h; simp at h
      · simp [environmentIsTypeUnqualified, hs]
    · rcases hm : symbolTableGet env.currentModule nm with - | info
      · rw [hm] at h; simp at h
      · cases hs : scopesLookup env.scopes nm with
        | some info2 => simp [environmentIsTypeUnqualified, hs]
        | none => simp [environmentIsTypeUnqualified, hs, hm]
  · intro env report line character nm m1 info1 m2 info2 rest hs hm himp
    simp only [environmentIsTypeUnqualified, hs, hm]
    rw [importsLookupLoop_none, himp]

/-- witness for `C7_environmentIsType_resolution` at a concrete
environment: `T` is provided by both imported modules `a` and `b` -/
theorem C7_environmentIsType_resolution_witness :
    environmentIsTypeUnqualified
        ⟨[], "cur".data,
          [("a".data, [("T".data, ⟨.SK_TYPE⟩)]),
           ("b".data, [("T".data, ⟨.SK_VAR⟩)])], []⟩
        [] 1 2 "T".data
      = (.INDETERMINATE,
          [.errorAmbiguousId 1 2 "T".data,
            .candidateModule "b".data, .candidateModule "a".data]) := by
  have h := C7_environmentIsType_resolution.2.2
    ⟨[], "cur".data,
      [("a".data, [("T".data, ⟨.SK_TYPE⟩)]),
       ("b".data, [("T".data, ⟨.SK_VAR⟩)])], []⟩
    [] 1 2 "T".data "a".data ⟨.SK_TYPE⟩ "b".data ⟨.SK_VAR⟩ []
    rfl rfl (by decide)
  simpa using h
